import Mathlib

/-!
# Verification of the Agent Orchestration Engine

A shallow embedding, in Lean 4, of the core of the Anemone agent backend:
the task-plan state machine (`TaskPlan`), the sequential task executor
(`TaskExecutor`), the event bus with its message-processing registry
(`EventBus`), the LLM task planner (`LLMTaskPlanner`), the command
dispatcher (`DefaultCommandExecutor`) and the free-text chat command
extraction (`ChatService`).

Modelling conventions:
* JavaScript strings are Lean `String`s / `List Char`.
* `Map` objects become association lists preserving JS `Map` insertion-order
  semantics (overwrite keeps the original position).
* Wall-clock `Date` values are `Nat` milliseconds passed in explicitly;
  fields that hold only timestamps for logging (`Task.startTime`,
  `Task.endTime`, `TaskPlan.createdAt`) and the randomised `planId` are
  omitted: no claim mentions them and no control flow depends on them.
* `Promise` rejection / `throw` is `Except String` carrying the error
  message (`error instanceof Error ? error.message : String(error)`).
* `EventBus.publish` is modelled as appending a structured event to a log:
  `publish` never throws (it catches handler errors) and never mutates the
  registry, so handler invocation cannot influence any property below.
* Untyped JS values coming back from collaborators are a `JsValue` tree;
  JS numbers are modelled as integers (`intV`): the only numeric fields the
  verified properties touch are BigInt chain values, which are `bigintV`
  with the exact integer (chain data is unsigned).
-/

namespace Anemone

/-! ## TaskPlan (src/unnamed/part_007, `TaskStatus`, `Task`, `TaskPlan`) -/

inductive TaskStatus where
  | pending
  | running
  | completed
  | failed
deriving DecidableEq, Repr

structure Task where
  id : String
  description : String
  status : TaskStatus
  command : Option String
  result : Option String
deriving DecidableEq, Repr

/-- The mutable state of a `TaskPlan` object.  `currentTaskIndex` keeps the
JS `-1` sentinel.  `userId` and `userMessage` are the readonly constructor
arguments. -/
structure PlanState where
  tasks : List Task
  currentTaskIndex : Int
  userId : String
  userMessage : String
deriving DecidableEq, Repr

namespace TaskPlan

/-- `new TaskPlan(userId, userMessage)`. -/
def newPlan (userId userMessage : String) : PlanState :=
  { tasks := [], currentTaskIndex := -1, userId := userId, userMessage := userMessage }

/-- `addTask(description, command?)`: appends a PENDING task whose id is
`task-<n>`.  (The source also returns the created task; its callers in the
planner ignore the return value.) -/
def addTask (description : String) (command : Option String) (st : PlanState) : PlanState :=
  let task : Task :=
    { id := "task-" ++ toString (st.tasks.length + 1)
      description := description
      status := .pending
      command := command
      result := none }
  { st with tasks := st.tasks ++ [task] }

/-- `tasks.findIndex(t => t.status === TaskStatus.PENDING)`. -/
def findPendingIdx : List Task → Nat → Option Nat
  | [], _ => none
  | t :: ts, i => if t.status = .pending then some i else findPendingIdx ts (i + 1)

/-- `getNextTask()`: first PENDING task; records its index in
`currentTaskIndex` when found, leaves the index unchanged otherwise. -/
def getNextTask (st : PlanState) : Option Task × PlanState :=
  match findPendingIdx st.tasks 0 with
  | some i => (st.tasks.get? i, { st with currentTaskIndex := (i : Int) })
  | none => (none, st)

/-- Update the task at `currentTaskIndex` (no-op on the `-1` sentinel). -/
def modifyCurrent (f : Task → Task) (st : PlanState) : PlanState :=
  if st.currentTaskIndex = -1 then st
  else { st with tasks := st.tasks.modify f st.currentTaskIndex.toNat }

/-- `startCurrentTask()`. -/
def startCurrentTask (st : PlanState) : PlanState :=
  modifyCurrent (fun t => { t with status := .running }) st

/-- `completeCurrentTask(result?)`. -/
def completeCurrentTask (result : Option String) (st : PlanState) : PlanState :=
  modifyCurrent (fun t => { t with status := .completed, result := result }) st

/-- `failCurrentTask(error)`. -/
def failCurrentTask (error : String) (st : PlanState) : PlanState :=
  modifyCurrent (fun t => { t with status := .failed, result := some error }) st

/-- `isCompleted()`: every task is COMPLETED or FAILED. -/
def isCompleted (st : PlanState) : Bool :=
  st.tasks.all (fun t => t.status = .completed || t.status = .failed)

/-- The command tokens carried by the plan's tasks, in task order. -/
def planCommands (st : PlanState) : List String :=
  st.tasks.filterMap (·.command)

end TaskPlan

/-! ## EventBus (src/unnamed/part_007, `EventBus` with the
message-processing registry) -/

inductive AgentEventType where
  | MESSAGE_RECEIVED | TASK_CREATED | ACTION_EXECUTED | SKILL_EXECUTED
  | MEMORY_UPDATED | PLAN_UPDATED | PROFILE_UPDATED | BLOCKCHAIN_DATA_FETCHED
  | TASK_PLAN_STARTED | TASK_PLAN_UPDATED | TASK_PLAN_COMPLETED
  | TASK_STARTED | TASK_COMPLETED | TASK_FAILED
  | MESSAGE_PROCESSING_STARTED | MESSAGE_PROCESSING_COMPLETED
deriving DecidableEq, Repr

structure MessageProcessingStatus where
  messageId : String
  userId : String
  processor : String
  startTime : Nat
  completed : Bool
  completedTime : Option Nat
deriving DecidableEq, Repr

/-- Events published on the bus, with the payload fields the registry
methods attach.  (`publish` stamps an ISO timestamp string derived from the
wall clock; we keep the underlying `Nat` milliseconds.) -/
inductive BusEvent where
  | processingStarted (messageId userId processor : String) (startTime : Nat)
  | processingCompleted (messageId userId processor : String)
      (startTime completedTime : Nat)
deriving DecidableEq, Repr

/-- The bus state: the `messageProcessingStatus` map (insertion-ordered
association list, as a JS `Map`), the log of published events, and counts
of live completion-event subscriptions and armed timers created by
`waitForProcessingCompleted`. -/
structure BusState where
  statusMap : List (String × MessageProcessingStatus)
  eventLog : List BusEvent
  completionWaiters : Nat
  armedTimers : Nat
deriving DecidableEq, Repr

namespace EventBus

def emptyBus : BusState :=
  { statusMap := [], eventLog := [], completionWaiters := 0, armedTimers := 0 }

/-- `Map.get`. -/
def mapGet (m : List (String × MessageProcessingStatus)) (k : String) :
    Option MessageProcessingStatus :=
  (m.find? (fun p => p.1 = k)).map (·.2)

/-- `Map.set`: overwrite in place, append if absent (JS insertion order). -/
def mapSet (m : List (String × MessageProcessingStatus)) (k : String)
    (v : MessageProcessingStatus) : List (String × MessageProcessingStatus) :=
  match m with
  | [] => [(k, v)]
  | (k', v') :: rest =>
      if k' = k then (k, v) :: rest else (k', v') :: mapSet rest k v

/-- The registry key: `` `${userId}:${messageId}` ``. -/
def mkKey (userId messageId : String) : String := userId ++ ":" ++ messageId

/-- `startMessageProcessing(messageId, userId, processor)`; `now` is the
wall clock in milliseconds.  Returns the boolean result and the new bus
state. -/
def startMessageProcessing (now : Nat) (messageId userId processor : String)
    (st : BusState) : Bool × BusState :=
  let key := mkKey userId messageId
  let proceed : Bool × BusState :=
    let status : MessageProcessingStatus :=
      { messageId := messageId, userId := userId, processor := processor
        startTime := now, completed := false, completedTime := none }
    (true,
      { st with
          statusMap := mapSet st.statusMap key status
          eventLog := st.eventLog ++
            [.processingStarted messageId userId processor now] })
  match mapGet st.statusMap key with
  | some status => if !status.completed then (false, st) else proceed
  | none => proceed

/-- `cleanupOldMessageStatus()`: drop entries older than 30 minutes. -/
def cleanupOldMessageStatus (now : Nat) (st : BusState) : BusState :=
  { st with
      statusMap := st.statusMap.filter
        (fun p => !(now - p.2.startTime > 30 * 60 * 1000)) }

/-- `completeMessageProcessing(messageId, userId, processor)`. -/
def completeMessageProcessing (now : Nat) (messageId userId processor : String)
    (st : BusState) : BusState :=
  let key := mkKey userId messageId
  match mapGet st.statusMap key with
  | some status =>
      if status.processor = processor then
        let status' := { status with completed := true, completedTime := some now }
        cleanupOldMessageStatus now
          { st with
              statusMap := mapSet st.statusMap key status'
              eventLog := st.eventLog ++
                [.processingCompleted messageId userId processor
                  status.startTime now] }
      else st
  | none => st

/-- How `waitForProcessingCompleted` leaves the synchronous part of its
promise executor: resolved immediately, or suspended after subscribing a
one-shot completion handler and arming the timeout timer. -/
inductive WaitOutcome where
  | immediate (value : Bool)
  | waits
deriving DecidableEq, Repr

/-- The synchronous prefix of `waitForProcessingCompleted(messageId,
userId, timeoutMs)`: the checks performed before any handler is subscribed
or timer armed. -/
def waitForProcessingCompletedSync (messageId userId : String)
    (st : BusState) : WaitOutcome × BusState :=
  let key := mkKey userId messageId
  match mapGet st.statusMap key with
  | some status =>
      if status.completed then (.immediate true, st)
      else
        (.waits,
          { st with
              completionWaiters := st.completionWaiters + 1
              armedTimers := st.armedTimers + 1 })
  | none => (.immediate false, st)

end EventBus

/-! ## TaskExecutor (src/unnamed/part_005)

`executePlan` drains the plan via `getNextTask`; `executeTask` runs one
task through the command executor.  The dispatcher is a parameter
`dispatch : command → userId → Except String String` (`.error` = the
promise rejected / threw, carrying the JS error message).  The
`TASK_STARTED` / `TASK_COMPLETED` / `TASK_FAILED` / `TASK_PLAN_*` events
published along the way are omitted: `EventBus.publish` swallows handler
errors, so publishing can neither throw into `executeTask`'s `try` block
nor change the plan state. -/

namespace TaskExecutor

open TaskPlan

/-- `executeTask(task, plan)`: returns the per-task result string and the
updated plan.  The `catch` branch marks the task FAILED with the raw error
message and returns the prefixed `执行失败: …` string. -/
def executeTask (dispatch : String → String → Except String String)
    (t : Task) (st : PlanState) : String × PlanState :=
  let st1 := startCurrentTask st
  match t.command with
  | some cmd =>
      match dispatch cmd st.userId with
      | .ok result => (result, completeCurrentTask (some result) st1)
      | .error msg => ("执行失败: " ++ msg, failCurrentTask msg st1)
  | none =>
      let result := "任务 \"" ++ t.description ++ "\" 已完成，无需执行命令"
      (result, completeCurrentTask (some result) st1)

/-- The `while ((task = plan.getNextTask()) !== undefined)` loop, with
explicit fuel; every iteration leaves the selected task terminal, so
`tasks.length + 1` fuel always reaches the `undefined` exit. -/
def runLoop (fuel : Nat) (dispatch : String → String → Except String String)
    (st : PlanState) : List String × PlanState :=
  match fuel with
  | 0 => ([], st)
  | fuel + 1 =>
      match getNextTask st with
      | (none, st') => ([], st')
      | (some t, st') =>
          let (r, st2) := executeTask dispatch t st'
          let (rs, st3) := runLoop fuel dispatch st2
          (r :: rs, st3)

/-- `executePlan(plan)`: the concatenated `results.join('\n\n')` plus the
final plan state. -/
def executePlan (dispatch : String → String → Except String String)
    (st : PlanState) : String × PlanState :=
  let (rs, st') := runLoop (st.tasks.length + 1) dispatch st
  (String.intercalate "\n\n" rs, st')

/-- The per-task string `executeTask` contributes to the executor output
for an initially PENDING task. -/
def taskOutcome (dispatch : String → String → Except String String)
    (userId : String) (t : Task) : String :=
  match t.command with
  | some cmd =>
      match dispatch cmd userId with
      | .ok result => result
      | .error msg => "执行失败: " ++ msg
  | none => "任务 \"" ++ t.description ++ "\" 已完成，无需执行命令"

/-- The terminal state `executeTask` leaves an initially PENDING task in. -/
def taskAfter (dispatch : String → String → Except String String)
    (userId : String) (t : Task) : Task :=
  match t.command with
  | some cmd =>
      match dispatch cmd userId with
      | .ok result => { t with status := .completed, result := some result }
      | .error msg => { t with status := .failed, result := some msg }
  | none =>
      { t with status := .completed
               result := some ("任务 \"" ++ t.description ++ "\" 已完成，无需执行命令") }

end TaskExecutor

/-! ## String helpers shared by planner, dispatcher and chat service -/

/-- ASCII lower-casing, the effect of `String.prototype.toLowerCase` on the
`A`–`Z` range (the only case-carrying characters in the keyword sets and
patterns below; CJK characters are unaffected by `toLowerCase`). -/
def toLowerCh (c : Char) : Char :=
  if 'A' ≤ c ∧ c ≤ 'Z' then Char.ofNat (c.toNat + 32) else c

def toLowerStr (s : String) : String := String.mk (s.data.map toLowerCh)

/-- `a.includes(b)` on JS strings: substring containment. -/
def listLeads : List Char → List Char → Bool
  | [], _ => true
  | _ :: _, [] => false
  | a :: as, b :: bs => a = b && listLeads as bs

def listContains (needle : List Char) : List Char → Bool
  | [] => listLeads needle []
  | c :: cs => listLeads needle (c :: cs) || listContains needle cs

def strIncludes (s needle : String) : Bool := listContains needle.data s.data

/-! ## LLMTaskPlanner (src/src/domain/planning/TaskPlanner.ts) -/

namespace LLMTaskPlanner

/-- The `name` fields of `availableTools`. -/
def availableToolNames : List String :=
  ["getWallet", "queryRoleData", "getTokens", "getTokensSummary",
   "querySkillDetails", "getProfile", "none"]

/-- `getCommandDescription(command)`. -/
def getCommandDescription (command : String) : String :=
  if command = "getWallet" then "钱包信息"
  else if command = "queryRoleData" then "角色数据"
  else if command = "getTokens" then "详细代币列表"
  else if command = "getTokensSummary" then "代币余额汇总"
  else if command = "querySkillDetails" then "技能详细信息"
  else if command = "getProfile" then "Profile配置"
  else if command = "none" then "无需查询数据"
  else command

/-- The line scan of `determineCommandsWithLLM`: walk `response.split('\n')`
tracking the `toolSection` flag, collecting valid `$tool` lines. -/
def parseToolLines (toolSection : Bool) (acc : List String) :
    List String → List String
  | [] => acc
  | line :: rest =>
      let trimmedLine := line.trim
      if trimmedLine = "Tools to use:" then parseToolLines true acc rest
      else if toolSection && trimmedLine.startsWith "$" then
        let toolName := (trimmedLine.drop 1).trim
        if availableToolNames.contains toolName then
          parseToolLines toolSection (acc ++ [toolName]) rest
        else parseToolLines toolSection acc rest
      else parseToolLines toolSection acc rest

def parseToolNames (response : String) : List String :=
  parseToolLines false [] (response.splitOn "\n")

/-- The balance-keyword test in `determineCommandsWithLLM`:
`userMessage.toLowerCase()` contains one of 余额 / balance / token / 代币. -/
def isBalanceQuery (userMessage : String) : Bool :=
  strIncludes (toLowerStr userMessage) "余额" ||
  strIncludes (toLowerStr userMessage) "balance" ||
  strIncludes (toLowerStr userMessage) "token" ||
  strIncludes (toLowerStr userMessage) "代币"

/-- `determineCommandsWithLLM(userMessage, chatHistory)`.  The LLM call is
the parameter `llmCall` (`.error` = `generateChatResponse` rejected, which
the inner `catch` turns into `['none']`). -/
def determineCommandsWithLLM (userMessage : String)
    (llmCall : Except String String) : List String :=
  match llmCall with
  | .error _ => ["none"]
  | .ok response =>
      let toolNames := parseToolNames response
      let toolNames :=
        if isBalanceQuery userMessage then
          let t1 :=
            if toolNames.contains "queryRoleData" then toolNames
            else toolNames ++ ["queryRoleData"]
          if t1.contains "getTokens" || t1.contains "getTokensSummary" then t1
          else t1 ++ ["getTokensSummary"]
        else toolNames
      if toolNames.length > 0 then toolNames else ["none"]

/-- `createPlan(userId, userMessage, chatHistory)`.  `llm = none` models the
`!(openAIConnector && apiKey)` branch; `some call` models the classifier
being invoked with outcome `call`.  (`determineCommandsWithLLM` catches its
own errors, so `createPlan`'s outer `catch` is unreachable.) -/
def createPlan (userId userMessage : String)
    (llm : Option (Except String String)) : PlanState :=
  let plan := TaskPlan.newPlan userId userMessage
  let plan := TaskPlan.addTask "解析用户意图，确定需要执行的操作" none plan
  let commandsToExecute :=
    match llm with
    | some call => determineCommandsWithLLM userMessage call
    | none => ["none"]
  let commandsToExecute :=
    if commandsToExecute.length = 0 then ["none"] else commandsToExecute
  let plan := commandsToExecute.foldl
    (fun p command =>
      TaskPlan.addTask ("获取" ++ getCommandDescription command) (some command) p)
    plan
  let plan := TaskPlan.addTask "整合收集的信息，准备回复" none plan
  TaskPlan.addTask "生成对用户的最终回复" none plan

end LLMTaskPlanner

/-! ## Untyped JS values

Collaborator services resolve untyped objects; the dispatcher inspects and
re-serializes them.  `intV` models JS numbers (all numeric collaborator
fields the verified properties touch are integers; float formatting is
outside the embedding).  `bigintV` models `BigInt` chain values, which are
unsigned. -/

inductive JsValue where
  | undefV
  | nullV
  | boolV (b : Bool)
  | intV (n : Int)
  | bigintV (n : Nat)
  | strV (s : String)
  | arrV (items : List JsValue)
  | objV (fields : List (String × JsValue))
deriving Repr

namespace Js

/-- JS truthiness. -/
def truthy : JsValue → Bool
  | .undefV => false
  | .nullV => false
  | .boolV b => b
  | .intV n => n ≠ 0
  | .bigintV n => n ≠ 0
  | .strV s => s ≠ ""
  | .arrV _ => true
  | .objV _ => true

/-- Property access `v[k]`.  On non-objects the properties read below do
not exist, so the result is `undefined`; the collaborator results these
reads are applied to are plain objects per their TypeScript interfaces. -/
def jsGet : JsValue → String → JsValue
  | .objV fs, k =>
      match fs.find? (fun p => p.1 = k) with
      | some p => p.2
      | none => .undefV
  | _, _ => .undefV

/-- `a || b`. -/
def jsOr (a b : JsValue) : JsValue := if truthy a then a else b

/-- Base-10 digits of `n`, least significant first (`[]` for `0`); the
fuel argument makes the `n / 10` recursion structural. -/
def decAux : Nat → Nat → List Nat
  | 0, _ => []
  | fuel + 1, n => if n = 0 then [] else n % 10 :: decAux fuel (n / 10)

def decDigitsLE (n : Nat) : List Nat := decAux (n + 1) n

/-- The value of a little-endian digit list (used to state that decimal
renderings are exact). -/
def valLE : List Nat → Nat
  | [] => 0
  | d :: ds => d + 10 * valLE ds

/-- `BigInt.prototype.toString()` (radix 10) as a character list. -/
def decChars (n : Nat) : List Char :=
  if n = 0 then ['0'] else (decDigitsLE n).reverse.map Nat.digitChar

def decRepr (n : Nat) : String := String.mk (decChars n)

mutual

/-- `String(v)` (also `v.toString()` for the values reaching it below;
array elements that are `null`/`undefined` render as the empty string). -/
def toStr : JsValue → String
  | .undefV => "undefined"
  | .nullV => "null"
  | .boolV b => if b then "true" else "false"
  | .intV n => toString n
  | .bigintV n => decRepr n
  | .strV s => s
  | .arrV xs => String.intercalate "," (toStrItems xs)
  | .objV _ => "[object Object]"

def toStrItems : List JsValue → List String
  | [] => []
  | .undefV :: vs => "" :: toStrItems vs
  | .nullV :: vs => "" :: toStrItems vs
  | v :: vs => toStr v :: toStrItems vs

end

end Js

/-! ## JSON.stringify -/

namespace Js

def hexCh (d : Nat) : Char := if d < 10 then Nat.digitChar d else Char.ofNat (97 + (d - 10))

/-- The escaping `JSON.stringify` applies inside string literals. -/
def jsonEscapeChar (c : Char) : String :=
  if c = '"' then "\\\""
  else if c = '\\' then "\\\\"
  else if c = '\n' then "\\n"
  else if c = '\r' then "\\r"
  else if c = '\t' then "\\t"
  else if c = Char.ofNat 8 then "\\b"
  else if c = Char.ofNat 12 then "\\f"
  else if c.toNat < 32 then
    "\\u00" ++ String.mk [hexCh (c.toNat / 16), hexCh (c.toNat % 16)]
  else String.singleton c

def jsonQuote (s : String) : String :=
  "\"" ++ String.join (s.data.map jsonEscapeChar) ++ "\""

mutual

/-- `JSON.stringify(v)`.  `.error` models the `TypeError` thrown on a
`BigInt`; `.ok none` models the `undefined` result for non-serializable
top-level values; `undefined`-valued object properties are skipped and
`undefined` array items become `null`, as in JS. -/
def serializeVal : JsValue → Except String (Option String)
  | .undefV => .ok none
  | .nullV => .ok (some "null")
  | .boolV b => .ok (some (if b then "true" else "false"))
  | .intV n => .ok (some (toString n))
  | .bigintV _ => .error "Do not know how to serialize a BigInt"
  | .strV s => .ok (some (jsonQuote s))
  | .arrV xs => do
      let items ← serializeArr xs
      .ok (some ("[" ++ String.intercalate "," items ++ "]"))
  | .objV fs => do
      let items ← serializeObj fs
      .ok (some ("\x7b" ++ String.intercalate "," items ++ "\x7d"))

def serializeArr : List JsValue → Except String (List String)
  | [] => .ok []
  | v :: vs => do
      let s ← serializeVal v
      let rest ← serializeArr vs
      .ok (s.getD "null" :: rest)

def serializeObj : List (String × JsValue) → Except String (List String)
  | [] => .ok []
  | (k, v) :: fs => do
      let s ← serializeVal v
      let rest ← serializeObj fs
      match s with
      | none => .ok rest
      | some sv => .ok ((jsonQuote k ++ ":" ++ sv) :: rest)

end

end Js

/-! ## DefaultCommandExecutor (src/unnamed/part_012, second revision, the
one with `formatDecimal`; the branch structure, the `none` sentinel, the
unknown-command string and the outer `catch` are identical in both
revisions in that file) -/

namespace DefaultCommandExecutor

open Js

def isDigitCh (c : Char) : Bool := '0' ≤ c && c ≤ '9'

def digitsVal (cs : List Char) : Nat :=
  cs.foldl (fun acc c => acc * 10 + (c.toNat - 48)) 0

/-- `BigInt(s)` for the strings that can reach `formatDecimal`: trims,
maps the empty string to `0`, accepts decimal digit strings, and throws a
`SyntaxError` otherwise (sign and radix prefixes never occur in chain
data and are not modelled). -/
def jsBigIntOfString (s : String) : Except String Nat :=
  let t := s.trim
  if t = "" then .ok 0
  else if t.data.all isDigitCh then .ok (digitsVal t.data)
  else .error ("Cannot convert " ++ s ++ " to a BigInt")

/-- The slicing core of `formatDecimal`: given `value.toString()`, pad to
`0.…` when at most `decimals` digits, otherwise insert the decimal point
`decimals` characters from the right. -/
def formatDecimalCore (valueStr : List Char) (decimals : Nat) : List Char :=
  if valueStr.length ≤ decimals then
    ('0' :: '.' :: List.replicate (decimals - valueStr.length) '0') ++ valueStr
  else
    valueStr.take (valueStr.length - decimals) ++
      '.' :: valueStr.drop (valueStr.length - decimals)

/-- `formatDecimal(value, decimals = 9)` from the `queryRoleData` branch:
strings are converted through `BigInt` first (which can throw), every
other value is used via `toString()`. -/
def formatDecimal (value : JsValue) (decimals : Nat := 9) : Except String String :=
  match value with
  | .strV s =>
      (jsBigIntOfString s).map fun n => String.mk (formatDecimalCore (decChars n) decimals)
  | .bigintV n => .ok (String.mk (formatDecimalCore (decChars n) decimals))
  | v => .ok (String.mk (formatDecimalCore (toStr v).data decimals))

/-- `typeof x === 'bigint' || typeof x === 'number' ? String(x) : x`. -/
def stringifyIfNumeric (v : JsValue) : JsValue :=
  match v with
  | .bigintV n => .strV (decRepr n)
  | .intV n => .strV (toString n)
  | v => v

/-- Object-literal update `{…obj, k: v}` / in-place assignment: overwrite
keeps the original key position, new keys are appended. -/
def objSet : List (String × JsValue) → String → JsValue → List (String × JsValue)
  | [], k, v => [(k, v)]
  | (k', v') :: fs, k, v =>
      if k' = k then (k, v) :: fs else (k', v') :: objSet fs k v

/-- Shallow spread `{...v}`: own enumerable properties. -/
def spreadToObj : JsValue → List (String × JsValue)
  | .objV fs => fs
  | .arrV xs => (xs.enum.map fun p => (toString p.1, p.2))
  | .strV s => (s.data.enum.map fun p => (toString p.1, JsValue.strV (String.singleton p.2)))
  | _ => []

mutual

/-- The recursive `processObject` helper of the `querySkillDetails`
branch applied to an object's properties: `BigInt` values become strings,
nested objects (arrays included) are processed recursively, `null` and
primitives are kept. -/
def processFields : List (String × JsValue) → List (String × JsValue)
  | [] => []
  | (k, .bigintV n) :: fs => (k, .strV (decRepr n)) :: processFields fs
  | (k, .objV gs) :: fs => (k, .objV (processFields gs)) :: processFields fs
  | (k, .arrV xs) :: fs => (k, .arrV (processItems xs)) :: processFields fs
  | (k, v) :: fs => (k, v) :: processFields fs

def processItems : List JsValue → List JsValue
  | [] => []
  | .bigintV n :: vs => .strV (decRepr n) :: processItems vs
  | .objV gs :: vs => .objV (processFields gs) :: processItems vs
  | .arrV xs :: vs => .arrV (processItems xs) :: processItems vs
  | v :: vs => v :: processItems vs

end

/-- `processObject(obj)` of the `querySkillDetails` branch. -/
def processObject (v : JsValue) : JsValue :=
  match v with
  | .objV fs => .objV (processFields fs)
  | .arrV xs => .arrV (processItems xs)
  | v => v

mutual

/-- The recursive `processProfile` helper of the `getProfile` branch; it
copies via `{ ...obj }`, so an array input yields a plain object keyed by
indices. -/
def profileFields : List (String × JsValue) → List (String × JsValue)
  | [] => []
  | (k, .bigintV n) :: fs => (k, .strV (decRepr n)) :: profileFields fs
  | (k, .objV gs) :: fs => (k, .objV (profileFields gs)) :: profileFields fs
  | (k, .arrV xs) :: fs => (k, .objV (profileArr xs 0)) :: profileFields fs
  | (k, v) :: fs => (k, v) :: profileFields fs

def profileArr : List JsValue → Nat → List (String × JsValue)
  | [], _ => []
  | .bigintV n :: vs, i => (toString i, .strV (decRepr n)) :: profileArr vs (i + 1)
  | .objV gs :: vs, i => (toString i, .objV (profileFields gs)) :: profileArr vs (i + 1)
  | .arrV xs :: vs, i => (toString i, .objV (profileArr xs 0)) :: profileArr vs (i + 1)
  | v :: vs, i => (toString i, v) :: profileArr vs (i + 1)

end

/-- `processProfile(obj)` of the `getProfile` branch. -/
def processProfile (v : JsValue) : JsValue :=
  match v with
  | .objV fs => .objV (profileFields fs)
  | .arrV xs => .objV (profileArr xs 0)
  | v => v

/-- The collaborator services behind the dispatcher (wallet, profile/chain
and Blockberry reads); `.error` = the awaited promise rejected, carrying
the JS error message. -/
structure CommandEnv where
  getWalletInfo : Except String JsValue
  getRoleOnChainData : Except String JsValue
  getAccountBalance : JsValue → Except String JsValue
  getAccountBalanceSummary : JsValue → Except String JsValue
  getProfile : Except String JsValue

/-- `new Error(x || 'dflt').message`. -/
def errMsgOr (m : JsValue) (dflt : String) : String :=
  if truthy m then toStr m else dflt

/-- `{...token, balance: …, balanceUsd: …, coinPrice: …}` from the
`getTokens` branch. -/
def processToken (token : JsValue) : JsValue :=
  .objV
    (objSet
      (objSet
        (objSet (spreadToObj token)
          "balance" (stringifyIfNumeric (jsGet token "balance")))
        "balanceUsd" (stringifyIfNumeric (jsGet token "balanceUsd")))
      "coinPrice" (stringifyIfNumeric (jsGet token "coinPrice")))

/-- The `skillDetails?.map(skill => …)` body of `querySkillDetails`. -/
def processSkill (skill : JsValue) : JsValue :=
  if !(truthy skill) then skill
  else
    let fs := spreadToObj skill
    let fs :=
      match jsGet skill "fee" with
      | .bigintV n => objSet fs "fee" (.strV (decRepr n))
      | _ => fs
    processObject (.objV fs)

/-- The body of the `try` block of `executeCommand`: the command `switch`.
Returns the branch result (`.ok none` = the JS function returned
`undefined`, possible only for `getWallet` on a non-object resolution) and
the list of collaborator calls made. -/
def executeCommandTry (env : CommandEnv) (command userId : String) :
    Except String (Option String) × List String :=
  if command = "getWallet" then
    match env.getWalletInfo with
    | .error e => (.error e, ["getWalletInfo"])
    | .ok walletResult => (serializeVal walletResult, ["getWalletInfo"])
  else if command = "queryRoleData" then
    match env.getRoleOnChainData with
    | .error e => (.error e, ["getRoleOnChainData"])
    | .ok rd =>
        if !(truthy (jsGet rd "success")) then
          (.error (errMsgOr (jsGet rd "message") "获取角色数据失败"), ["getRoleOnChainData"])
        else
          let role := jsGet rd "role"
          let hV := jsGet role "health"
          let bV := jsGet role "balance"
          match (if truthy hV then formatDecimal hV else .ok "0") with
          | .error e => (.error e, ["getRoleOnChainData"])
          | .ok healthStr =>
              match (if truthy bV then formatDecimal bV else .ok "0") with
              | .error e => (.error e, ["getRoleOnChainData"])
              | .ok balanceStr =>
                  let obj : JsValue := .objV
                    [("roleId", jsOr (jsGet role "id") (.strV "")),
                     ("health", .strV healthStr),
                     ("rawHealth", .strV (if truthy hV then toStr hV else "0")),
                     ("balance", .strV balanceStr),
                     ("rawBalance", .strV (if truthy bV then toStr bV else "0")),
                     ("skills", jsOr (jsGet role "skills") (.arrV []))]
                  (serializeVal obj, ["getRoleOnChainData"])
  else if command = "getTokens" then
    match env.getWalletInfo with
    | .error e => (.error e, ["getWalletInfo"])
    | .ok walletResult =>
        if !(truthy (jsGet walletResult "success")) || !(truthy (jsGet walletResult "address")) then
          (.error "获取钱包地址失败", ["getWalletInfo"])
        else
          let address := jsGet walletResult "address"
          match env.getAccountBalance address with
          | .error e => (.error e, ["getWalletInfo", "getAccountBalance"])
          | .ok tokenResult =>
              if !(truthy (jsGet tokenResult "success")) then
                (.error (errMsgOr (jsGet tokenResult "message") "获取代币列表失败"),
                  ["getWalletInfo", "getAccountBalance"])
              else
                let processedBalances :=
                  match jsGet tokenResult "balances" with
                  | .arrV tokens => tokens.map processToken
                  | _ => []
                (serializeVal (.objV [("tokens", .arrV processedBalances)]),
                  ["getWalletInfo", "getAccountBalance"])
  else if command = "getTokensSummary" then
    match env.getWalletInfo with
    | .error e => (.error e, ["getWalletInfo"])
    | .ok walletResult =>
        if !(truthy (jsGet walletResult "success")) || !(truthy (jsGet walletResult "address")) then
          (.error "获取钱包地址失败", ["getWalletInfo"])
        else
          let address := jsGet walletResult "address"
          match env.getAccountBalanceSummary address with
          | .error e => (.error e, ["getWalletInfo", "getAccountBalanceSummary"])
          | .ok summaryResult =>
              if !(truthy (jsGet summaryResult "success")) then
                (.error (errMsgOr (jsGet summaryResult "message") "获取代币汇总失败"),
                  ["getWalletInfo", "getAccountBalanceSummary"])
              else
                let summary := jsGet summaryResult "summary"
                let processedSummary : JsValue :=
                  if truthy summary then
                    .objV
                      [("totalUsdValue", stringifyIfNumeric (jsGet summary "totalUsdValue")),
                       ("suiBalance", stringifyIfNumeric (jsGet summary "suiBalance")),
                       ("suiUsdValue", stringifyIfNumeric (jsGet summary "suiUsdValue")),
                       ("tokensCount", jsGet summary "tokensCount")]
                  else
                    .objV
                      [("totalUsdValue", .intV 0), ("suiBalance", .intV 0),
                       ("suiUsdValue", .intV 0), ("tokensCount", .intV 0)]
                (serializeVal processedSummary, ["getWalletInfo", "getAccountBalanceSummary"])
  else if command = "querySkillDetails" then
    match env.getRoleOnChainData with
    | .error e => (.error e, ["getRoleOnChainData"])
    | .ok rd =>
        if !(truthy (jsGet rd "success")) then
          (.error (errMsgOr (jsGet rd "message") "获取角色数据失败"), ["getRoleOnChainData"])
        else
          let processedSkillDetails :=
            match jsGet rd "skillDetails" with
            | .arrV skills => skills.map processSkill
            | _ => []
          (serializeVal (.objV [("skills", .arrV processedSkillDetails)]),
            ["getRoleOnChainData"])
  else if command = "getProfile" then
    match env.getProfile with
    | .error e => (.error e, ["getProfile"])
    | .ok profileResult =>
        if !(truthy (jsGet profileResult "success")) then
          (.error (errMsgOr (jsGet profileResult "message") "获取Profile配置失败"),
            ["getProfile"])
        else
          let processedProfile :=
            processProfile (jsOr (jsGet profileResult "profile") (.objV []))
          (serializeVal processedProfile, ["getProfile"])
  else if command = "none" then
    (.ok (some "没有执行任何命令，因为不需要查询数据"), [])
  else
    (.ok (some ("未知命令: " ++ command)), [])

/-- `executeCommand(command, userId)`: the `try`/`catch` wrapper.  The
first component is the returned value (`none` = JS `undefined`); the
second is the collaborator call log. -/
def executeCommand (env : CommandEnv) (command userId : String) :
    Option String × List String :=
  match executeCommandTry env command userId with
  | (.ok s, log) => (s, log)
  | (.error e, log) => (some ("执行命令失败: " ++ e), log)

end DefaultCommandExecutor

/-! ## ChatService (src/unnamed/part_009): command extraction from
free-text LLM output and the marker-seeking retry loop -/

namespace ChatService

/-- `\d` (JS regexes match exactly the ASCII digits). -/
def isDigit (c : Char) : Bool := '0' ≤ c && c ≤ '9'

/-- `\s`: the whitespace characters relevant here (ASCII whitespace; the
exotic Unicode space code points never occur in the patterns' contexts). -/
def isSpace (c : Char) : Bool :=
  c = ' ' || c = '\t' || c = '\n' || c = '\x0d' || c = Char.ofNat 11 || c = Char.ofNat 12

/-- `\w`. -/
def isWordCh (c : Char) : Bool :=
  ('a' ≤ c && c ≤ 'z') || ('A' ≤ c && c ≤ 'Z') || ('0' ≤ c && c ≤ '9') || c = '_'

/-- Literal prefix match; `ci` compares case-insensitively (the `/i`
flag). -/
def litAt (ci : Bool) : List Char → List Char → Bool
  | [], _ => true
  | _ :: _, [] => false
  | a :: as, b :: bs =>
      (if ci then toLowerCh a = toLowerCh b else a = b) && litAt ci as bs

/-- `[:：]\s*\d` as a prefix: a colon, optional whitespace, then a digit
(the trailing `+` of `\d+` is irrelevant for `test`). -/
def colonSpacesDigit : List Char → Bool
  | [] => false
  | c :: rest =>
      (c = ':' || c = '：') && spacesThenDigit rest
where
  spacesThenDigit : List Char → Bool
    | [] => false
    | c :: rest => if isDigit c then true else if isSpace c then spacesThenDigit rest else false

/-- `\d+\s*<lit>` as a prefix starting at a digit: one or more digits,
optional whitespace, then the literal (digits, whitespace and the
literals' first characters are disjoint, so the greedy scan is exact). -/
def digitsSpacesLit (ci : Bool) (lit : List Char) : List Char → Bool
  | [] => false
  | c :: rest => isDigit c && afterDigits rest
where
  afterDigits : List Char → Bool
    | [] => litAt ci lit []
    | c :: rest =>
        if isDigit c then afterDigits rest
        else if isSpace c then afterSpaces (c :: rest)
        else litAt ci lit (c :: rest)
  afterSpaces : List Char → Bool
    | [] => litAt ci lit []
    | c :: rest => if isSpace c then afterSpaces rest else litAt ci lit (c :: rest)

/-- `regex.test(s)`: does the prefix matcher succeed at some position? -/
def testAnywhere (m : List Char → Bool) : List Char → Bool
  | [] => m []
  | c :: cs => m (c :: cs) || testAnywhere m cs

/-- The `fabricationPatterns` array: `余额[:：]\s*\d+`, `balance[:：]\s*\d+`
(`/i`), `(\d+)\s*SUI` (`/i`), `(\d+)\s*余额`, `健康值[:：]\s*\d+`,
`health[:：]\s*\d+` (`/i`). -/
def hasFabricatedData (cs : List Char) : Bool :=
  testAnywhere (fun s => litAt false "余额".data s && colonSpacesDigit (s.drop 2)) cs ||
  testAnywhere (fun s => litAt true "balance".data s && colonSpacesDigit (s.drop 7)) cs ||
  testAnywhere (digitsSpacesLit true "sui".data) cs ||
  testAnywhere (digitsSpacesLit false "余额".data) cs ||
  testAnywhere (fun s => litAt false "健康值".data s && colonSpacesDigit (s.drop 3)) cs ||
  testAnywhere (fun s => litAt true "health".data s && colonSpacesDigit (s.drop 6)) cs

/-- `/\$execute:none/i.test(s)`. -/
def noneCommandTest (cs : List Char) : Bool :=
  testAnywhere (litAt true "$execute:none".data) cs

/-- The scan behind `s.matchAll(/\$execute:(\w+)/g)`; the fuel argument
(one unit per character position) keeps the recursion structural — every
step consumes at least one character, so `cs.length` fuel suffices. -/
def findMarkersGo : Nat → List Char → List (List Char)
  | 0, _ => []
  | fuel + 1, cs =>
      match cs with
      | [] => []
      | c :: rest =>
          if litAt false "$execute:".data (c :: rest) then
            let after := (c :: rest).drop 9
            let w := after.takeWhile isWordCh
            if w.isEmpty then findMarkersGo fuel rest
            else w :: findMarkersGo fuel (after.drop w.length)
          else findMarkersGo fuel rest

/-- `s.matchAll(/\$execute:(\w+)/g)`: the captured command words in order,
non-overlapping, resuming after each match. -/
def findMarkers (cs : List Char) : List (List Char) := findMarkersGo cs.length cs

/-- `executeCommands(llmResponse)`'s result record. -/
structure ExecCmdResult where
  hasCommands : Bool
  isNoneCommand : Bool
  executedCommands : List String
  resultsDescription : String
deriving DecidableEq, Repr

/-- The result record the fabrication guard and the `$execute:none`
branches produce. -/
def noneResult : ExecCmdResult :=
  { hasCommands := true, isNoneCommand := true
    executedCommands := ["$execute:none"], resultsDescription := "" }

def emptyResult : ExecCmdResult :=
  { hasCommands := false, isNoneCommand := false
    executedCommands := [], resultsDescription := "" }

/-- The six commands the `switch` inside the match loop knows. -/
def knownChatCommands : List String :=
  ["queryRoleData", "querySkillDetails", "getProfile", "getWallet",
   "getTokens", "getTokensSummary"]

/-- `executeCommands(llmResponse)`.  `coordinatorSet` is
`this.agentCoordinator !== null`; `dispatch` abstracts one iteration of
the match loop's `switch` for a known command — the formatting of the
`agentCoordinator` data it produces (including its internal `try/catch`)
involves only external collaborator output and JS float arithmetic, and no
verified property depends on it.  The `default:` arm's
`未知命令: …` entry is kept.  Returns the result record and the list of
commands dispatched through the coordinator. -/
def executeCommands (coordinatorSet : Bool) (dispatch : String → String)
    (llmResponse : String) : ExecCmdResult × List String :=
  let cs := llmResponse.data
  if noneCommandTest cs then (noneResult, [])
  else if ¬ coordinatorSet then
    if hasFabricatedData cs then (noneResult, []) else (emptyResult, [])
  else
    let allMatches := findMarkers cs
    if allMatches.isEmpty then
      if hasFabricatedData cs then (noneResult, []) else (emptyResult, [])
    else
      let words := allMatches.map fun w => String.mk w
      let resultsArray := words.map fun w =>
        if knownChatCommands.contains w then dispatch w else "未知命令: " ++ w
      ({ hasCommands := true, isNoneCommand := false
         executedCommands := words.map (fun w => "$execute:" ++ w)
         resultsDescription := String.intercalate "\n\n" resultsArray },
       words.filter (fun w => knownChatCommands.contains w))

/-- JS `trim()` on the whitespace set above. -/
def jsTrim (s : String) : String :=
  String.mk (((s.data.dropWhile isSpace).reverse.dropWhile isSpace).reverse)

/-- The scan behind `s.replace(/\$execute:none/gi, '')`, fuelled like
`findMarkersGo`. -/
def removeNoneMarkersGo : Nat → List Char → List Char
  | 0, cs => cs
  | fuel + 1, cs =>
      match cs with
      | [] => []
      | c :: rest =>
          if litAt true "$execute:none".data (c :: rest) then
            removeNoneMarkersGo fuel ((c :: rest).drop 13)
          else c :: removeNoneMarkersGo fuel rest

/-- `s.replace(/\$execute:none/gi, '')`. -/
def removeNoneMarkers (cs : List Char) : List Char :=
  removeNoneMarkersGo cs.length cs

/-- The warning prefixed when the marker-seeking loop exhausts its bound
without obtaining a command. -/
def unverifiedWarning : String :=
  "注意：系统无法确认此回复是否包含准确数据。请明确要求我执行查询命令以获取准确信息。\n\n"

/-- State after the `do … while` loop of `processMessage`:  the last
completion, the last `executeCommands` outcome and the attempt count. -/
structure ChatLoopOut where
  completion : String
  exec : ExecCmdResult
  attempts : Nat
deriving DecidableEq, Repr

/-- The `do … while (!executionResults.hasCommands && attempts <
maxAttempts)` loop.  `provider n` is the completion returned by
`generateChatResponse` on attempt `n` with `|| ''` applied (the retry
prompt only changes the text sent, which the provider function already
indexes by attempt number).  An empty completion `break`s with the
previous `executionResults` value. -/
def chatLoopGo (provider : ℕ → String) (coordinatorSet : Bool)
    (dispatch : String → String) (prevExec : ExecCmdResult) :
    Nat → Nat → ChatLoopOut
  | 0, attempts => { completion := "", exec := prevExec, attempts := attempts }
  | fuel + 1, attempts =>
      let attempts := attempts + 1
      let completion := provider attempts
      if completion = "" then
        { completion := "", exec := prevExec, attempts := attempts }
      else
        let exec := (executeCommands coordinatorSet dispatch completion).1
        if ¬ exec.hasCommands && attempts < 3 then
          chatLoopGo provider coordinatorSet dispatch exec fuel attempts
        else
          { completion := completion, exec := exec, attempts := attempts }

def chatLoop (provider : ℕ → String) (coordinatorSet : Bool)
    (dispatch : String → String) : ChatLoopOut :=
  chatLoopGo provider coordinatorSet dispatch
    { hasCommands := false, isNoneCommand := false
      executedCommands := [], resultsDescription := "" } 3 0

/-- The `responseText` selection that follows the loop in
`processMessage` (`finalProvider` is the second `generateChatResponse`
call made on the command path, with `undefined` as `none`; `finalCompletion
|| completion` treats the empty string as falsy). -/
def responseTextAfterLoop (lo : ChatLoopOut) (finalProvider : Option String) : String :=
  if lo.completion = "" then "无法从OpenAI获取有效回复"
  else if lo.exec.hasCommands && ¬ lo.exec.isNoneCommand then
    match finalProvider with
    | some s => if s = "" then lo.completion else s
    | none => lo.completion
  else if lo.exec.isNoneCommand then
    jsTrim (String.mk (removeNoneMarkers lo.completion.data))
  else
    unverifiedWarning ++ lo.completion

/-- The free-text chat path of `processMessage` (the `apiKey` branch):
loop, then response selection. -/
def processMessageChat (provider : ℕ → String) (finalProvider : Option String)
    (coordinatorSet : Bool) (dispatch : String → String) : String :=
  responseTextAfterLoop (chatLoop provider coordinatorSet dispatch) finalProvider

end ChatService

/-! ## Operation sequences on a TaskPlan

For the terminal-state claims we consider arbitrary sequences of the
public `TaskPlan` mutators.  `RawOp` is one raw method call;
`ExecOp.round` is the call pattern the `TaskExecutor` performs per
iteration (`getNextTask`, then `startCurrentTask`, then exactly one of
`completeCurrentTask`/`failCurrentTask`, skipped when `getNextTask`
returned `undefined`). -/

namespace TaskPlanOps

open TaskPlan

inductive RawOp where
  | add (description : String) (command : Option String)
  | next
  | start
  | complete (result : Option String)
  | fail (error : String)

def applyRawOp (op : RawOp) (st : PlanState) : PlanState :=
  match op with
  | .add d c => addTask d c st
  | .next => (getNextTask st).2
  | .start => startCurrentTask st
  | .complete r => completeCurrentTask r st
  | .fail e => failCurrentTask e st

def applyRawOps (ops : List RawOp) (st : PlanState) : PlanState :=
  ops.foldl (fun s op => applyRawOp op s) st

inductive ExecOp where
  | add (description : String) (command : Option String)
  | round (outcome : Except String String)

def applyExecOp (op : ExecOp) (st : PlanState) : PlanState :=
  match op with
  | .add d c => addTask d c st
  | .round outcome =>
      match getNextTask st with
      | (none, st') => st'
      | (some _, st') =>
          let st1 := startCurrentTask st'
          match outcome with
          | .ok r => completeCurrentTask (some r) st1
          | .error e => failCurrentTask e st1

def applyExecOps (ops : List ExecOp) (st : PlanState) : PlanState :=
  ops.foldl (fun s op => applyExecOp op s) st

/-- A task state is terminal when COMPLETED or FAILED. -/
def terminal (t : Task) : Bool :=
  t.status = .completed || t.status = .failed

end TaskPlanOps

/-! ## Properties of the EventBus processing registry (C1, C9, C10) -/

namespace EventBus

lemma mapGet_mapSet_self (m : List (String × MessageProcessingStatus))
    (k : String) (v : MessageProcessingStatus) :
    mapGet (mapSet m k v) k = some v := by
  induction m with
  | nil => simp [mapGet, mapSet]
  | cons p rest ih =>
      by_cases h : p.1 = k
      · simp [mapGet, mapSet, h]
      · simpa [mapGet, mapSet, h] using ih

end EventBus

/-- C1: `startMessageProcessing(messageId, userId, p)` returns `false` and
leaves the registry, the event log and the whole bus state untouched when
an active (uncompleted) `ProcessingStatus` exists for the key; otherwise
it records a fresh uncompleted status carrying processor `p`, publishes
`MESSAGE_PROCESSING_STARTED`, and returns `true`.  Consequently two
successive calls for the same key with no completion in between return
`true` then `false`. -/
theorem startMessageProcessing_admission
    (st : BusState) (now now2 : Nat) (messageId userId p p2 : String) :
    (∀ s, EventBus.mapGet st.statusMap (EventBus.mkKey userId messageId) = some s →
        s.completed = false →
        EventBus.startMessageProcessing now messageId userId p st = (false, st)) ∧
    ((∀ s, EventBus.mapGet st.statusMap (EventBus.mkKey userId messageId) = some s →
        s.completed = true) →
      (EventBus.startMessageProcessing now messageId userId p st).1 = true ∧
      EventBus.mapGet
          (EventBus.startMessageProcessing now messageId userId p st).2.statusMap
          (EventBus.mkKey userId messageId) =
        some { messageId := messageId, userId := userId, processor := p,
               startTime := now, completed := false, completedTime := none } ∧
      (EventBus.startMessageProcessing now messageId userId p st).2.eventLog =
        st.eventLog ++ [.processingStarted messageId userId p now]) ∧
    ((EventBus.startMessageProcessing now messageId userId p st).1 = true →
      (EventBus.startMessageProcessing now2 messageId userId p2
          (EventBus.startMessageProcessing now messageId userId p st).2).1 = false) := by
  refine ⟨?_, ?_, ?_⟩
  · intro s hs hc
    simp [EventBus.startMessageProcessing, hs, hc]
  · intro h
    cases hg : EventBus.mapGet st.statusMap (EventBus.mkKey userId messageId) with
    | none =>
        simp [EventBus.startMessageProcessing, hg, EventBus.mapGet_mapSet_self]
    | some s =>
        have hc := h s hg
        simp [EventBus.startMessageProcessing, hg, hc, EventBus.mapGet_mapSet_self]
  · intro h1
    cases hg : EventBus.mapGet st.statusMap (EventBus.mkKey userId messageId) with
    | none =>
        simp [EventBus.startMessageProcessing, hg,
          EventBus.mapGet_mapSet_self] at h1 ⊢
    | some s =>
        by_cases hc : s.completed
        · simp [EventBus.startMessageProcessing, hg, hc,
            EventBus.mapGet_mapSet_self]
        · simp [EventBus.startMessageProcessing, hg, hc] at h1

/-- Witness for C1 at a concrete bus: admission is granted on the empty
registry, then refused before completion. -/
theorem startMessageProcessing_admission_witness :
    (EventBus.startMessageProcessing 5 "m1" "u1" "A" EventBus.emptyBus).1 = true ∧
    (EventBus.startMessageProcessing 6 "m1" "u1" "B"
        (EventBus.startMessageProcessing 5 "m1" "u1" "A" EventBus.emptyBus).2).1 = false := by
  have h := startMessageProcessing_admission EventBus.emptyBus 5 6 "m1" "u1" "A" "B"
  have h1 : (EventBus.startMessageProcessing 5 "m1" "u1" "A" EventBus.emptyBus).1 = true := by
    exact (h.2.1 (by intro s hs; simp [EventBus.mapGet, EventBus.emptyBus] at hs)).1
  exact ⟨h1, h.2.2 h1⟩

/-- C9: `waitForProcessingCompleted` resolves `false` immediately — with
no handler subscribed and no timer armed, the bus state untouched — when
the key has no `ProcessingStatus` record, and resolves `true` immediately
when the record is already completed. -/
theorem waitForProcessingCompleted_immediate
    (st : BusState) (messageId userId : String) :
    (EventBus.mapGet st.statusMap (EventBus.mkKey userId messageId) = none →
      EventBus.waitForProcessingCompletedSync messageId userId st =
        (.immediate false, st)) ∧
    (∀ s, EventBus.mapGet st.statusMap (EventBus.mkKey userId messageId) = some s →
      s.completed = true →
      EventBus.waitForProcessingCompletedSync messageId userId st =
        (.immediate true, st)) := by
  constructor
  · intro h
    simp [EventBus.waitForProcessingCompletedSync, h]
  · intro s hs hc
    simp [EventBus.waitForProcessingCompletedSync, hs, hc]

/-- Witness for C9: an unknown key resolves `false` at once; a completed
record resolves `true` at once. -/
theorem waitForProcessingCompleted_immediate_witness :
    EventBus.waitForProcessingCompletedSync "m9" "u9" EventBus.emptyBus =
      (.immediate false, EventBus.emptyBus) ∧
    EventBus.waitForProcessingCompletedSync "m9" "u9"
        { EventBus.emptyBus with
            statusMap := [("u9:m9",
              { messageId := "m9", userId := "u9", processor := "A",
                startTime := 0, completed := true, completedTime := some 7 })] } =
      (.immediate true,
        { EventBus.emptyBus with
            statusMap := [("u9:m9",
              { messageId := "m9", userId := "u9", processor := "A",
                startTime := 0, completed := true, completedTime := some 7 })] }) := by
  constructor
  · exact (waitForProcessingCompleted_immediate EventBus.emptyBus "m9" "u9").1 (by decide)
  · exact (waitForProcessingCompleted_immediate _ "m9" "u9").2
      { messageId := "m9", userId := "u9", processor := "A",
        startTime := 0, completed := true, completedTime := some 7 }
      (by decide) (by decide)

/-- C10: when the record for a key is already completed, a new
`startMessageProcessing` call wins admission again: it returns `true` and
replaces the record with a fresh uncompleted one naming the new
processor. -/
theorem startMessageProcessing_resets_after_completion
    (st : BusState) (now : Nat) (messageId userId p : String) :
    ∀ s, EventBus.mapGet st.statusMap (EventBus.mkKey userId messageId) = some s →
      s.completed = true →
      (EventBus.startMessageProcessing now messageId userId p st).1 = true ∧
      EventBus.mapGet
          (EventBus.startMessageProcessing now messageId userId p st).2.statusMap
          (EventBus.mkKey userId messageId) =
        some { messageId := messageId, userId := userId, processor := p,
               startTime := now, completed := false, completedTime := none } := by
  intro s hs hc
  simp [EventBus.startMessageProcessing, hs, hc, EventBus.mapGet_mapSet_self]

/-- Witness for C10: after `completeMessageProcessing`, a different
processor wins admission and the key holds its fresh uncompleted record. -/
theorem startMessageProcessing_resets_after_completion_witness :
    (EventBus.startMessageProcessing 9 "m1" "u1" "B"
        (EventBus.completeMessageProcessing 3 "m1" "u1" "A"
          (EventBus.startMessageProcessing 1 "m1" "u1" "A" EventBus.emptyBus).2)).1 = true ∧
    EventBus.mapGet
        (EventBus.startMessageProcessing 9 "m1" "u1" "B"
          (EventBus.completeMessageProcessing 3 "m1" "u1" "A"
            (EventBus.startMessageProcessing 1 "m1" "u1" "A" EventBus.emptyBus).2)).2.statusMap
        (EventBus.mkKey "u1" "m1") =
      some { messageId := "m1", userId := "u1", processor := "B",
             startTime := 9, completed := false, completedTime := none } := by
  exact startMessageProcessing_resets_after_completion _ 9 "m1" "u1" "B"
    { messageId := "m1", userId := "u1", processor := "A",
      startTime := 1, completed := true, completedTime := some 3 }
    (by decide) (by decide)

/-! ## The planner's balance/token domain rule (C2) -/

namespace LLMTaskPlanner

lemma planCommands_addTask_none (d : String) (p : PlanState) :
    TaskPlan.planCommands (TaskPlan.addTask d none p) = TaskPlan.planCommands p := by
  simp [TaskPlan.planCommands, TaskPlan.addTask, List.filterMap_append]

lemma planCommands_foldl_addTask (cs : List String) (p : PlanState) :
    TaskPlan.planCommands
      (cs.foldl
        (fun p command =>
          TaskPlan.addTask ("获取" ++ getCommandDescription command) (some command) p)
        p) =
      TaskPlan.planCommands p ++ cs := by
  induction cs generalizing p with
  | nil => simp
  | cons c cs ih =>
      rw [List.foldl_cons, ih]
      simp [TaskPlan.planCommands, TaskPlan.addTask, List.filterMap_append]

/-- The command tokens of a created plan are exactly the selected command
list (the three bookkeeping tasks carry no command). -/
lemma planCommands_createPlan (uid msg : String)
    (llm : Option (Except String String)) :
    TaskPlan.planCommands (createPlan uid msg llm) =
      (let cs :=
        match llm with
        | some call => determineCommandsWithLLM msg call
        | none => ["none"]
      if cs.length = 0 then ["none"] else cs) := by
  show TaskPlan.planCommands (createPlan uid msg llm) = _
  unfold createPlan
  rw [planCommands_addTask_none, planCommands_addTask_none,
    planCommands_foldl_addTask, planCommands_addTask_none]
  simp [TaskPlan.planCommands, TaskPlan.newPlan]

end LLMTaskPlanner

/-- C2: when the lower-cased user message contains a balance/token keyword
(余额 / balance / token / 代币) and the classifier ran (the LLM call
returned a response, whatever its text), the command set of the plan
`createPlan` produces contains `queryRoleData` and at least one of
`getTokens`/`getTokensSummary` — even when the classifier's response named
only one of them, or neither. -/
theorem createPlan_balance_rule (userId message resp : String)
    (hb : LLMTaskPlanner.isBalanceQuery message = true) :
    "queryRoleData" ∈ TaskPlan.planCommands
        (LLMTaskPlanner.createPlan userId message (some (.ok resp))) ∧
    ("getTokens" ∈ TaskPlan.planCommands
        (LLMTaskPlanner.createPlan userId message (some (.ok resp))) ∨
     "getTokensSummary" ∈ TaskPlan.planCommands
        (LLMTaskPlanner.createPlan userId message (some (.ok resp)))) := by
  rw [LLMTaskPlanner.planCommands_createPlan]
  simp only [LLMTaskPlanner.determineCommandsWithLLM, hb, if_true]
  set t0 := LLMTaskPlanner.parseToolNames resp with ht0
  set t1 := if t0.contains "queryRoleData" then t0 else t0 ++ ["queryRoleData"]
    with ht1
  have hq : "queryRoleData" ∈ t1 := by
    rw [ht1]
    by_cases h : t0.contains "queryRoleData"
    · rw [if_pos h]
      exact List.elem_iff.mp h
    · rw [if_neg h]
      simp
  set t2 := if t1.contains "getTokens" || t1.contains "getTokensSummary" then t1
    else t1 ++ ["getTokensSummary"] with ht2
  have hq2 : "queryRoleData" ∈ t2 := by
    rw [ht2]
    by_cases h : t1.contains "getTokens" || t1.contains "getTokensSummary"
    · rw [if_pos h]; exact hq
    · rw [if_neg h]; exact List.mem_append_left _ hq
  have hg2 : "getTokens" ∈ t2 ∨ "getTokensSummary" ∈ t2 := by
    rw [ht2]
    by_cases h : t1.contains "getTokens" || t1.contains "getTokensSummary"
    · rw [if_pos h]
      rcases Bool.or_eq_true_iff.mp h with h' | h'
      · exact Or.inl (List.elem_iff.mp h')
      · exact Or.inr (List.elem_iff.mp h')
    · rw [if_neg h]
      exact Or.inr (by simp)
  have hlen : ¬ t2.length = 0 := by
    intro h0
    rw [List.length_eq_zero] at h0
    rw [h0] at hq2
    simp at hq2
  have hpos : t2.length > 0 := Nat.pos_of_ne_zero hlen
  rw [if_pos hpos, if_neg hlen]
  exact ⟨hq2, hg2⟩

/-- Witness for C2: the message `balance` with an empty classifier
response (which nominates no tool at all) still yields a plan containing
`queryRoleData` and `getTokensSummary`. -/
theorem createPlan_balance_rule_witness :
    "queryRoleData" ∈ TaskPlan.planCommands
        (LLMTaskPlanner.createPlan "u" "balance" (some (.ok ""))) ∧
    ("getTokens" ∈ TaskPlan.planCommands
        (LLMTaskPlanner.createPlan "u" "balance" (some (.ok ""))) ∨
     "getTokensSummary" ∈ TaskPlan.planCommands
        (LLMTaskPlanner.createPlan "u" "balance" (some (.ok "")))) :=
  createPlan_balance_rule "u" "balance" "" (by decide)

/-! ## The command dispatcher never throws (C5) -/

namespace DefaultCommandExecutor

lemma serializeVal_objV_ne_ok_none (fs : List (String × JsValue)) :
    Js.serializeVal (.objV fs) ≠ .ok none := by
  intro hs
  rw [Js.serializeVal] at hs
  cases h : Js.serializeObj fs with
  | ok items => rw [h] at hs; simp [Bind.bind, Except.bind] at hs
  | error e => rw [h] at hs; simp [Bind.bind, Except.bind] at hs

/-- `processProfile` of the `|| {}` fallback is never a primitive that
serializes to `undefined`. -/
lemma serialize_processProfile_ne_ok_none (v : JsValue) :
    Js.serializeVal (processProfile (Js.jsOr v (.objV []))) ≠ .ok none := by
  unfold Js.jsOr
  by_cases hpp : Js.truthy v
  · rw [if_pos hpp]
    unfold processProfile
    cases v with
    | objV fs => exact serializeVal_objV_ne_ok_none _
    | arrV xs => exact serializeVal_objV_ne_ok_none _
    | undefV => simp [Js.truthy] at hpp
    | nullV => simp [Js.truthy] at hpp
    | boolV b => simp [Js.serializeVal]
    | intV n => simp [Js.serializeVal]
    | bigintV n => simp [Js.serializeVal]
    | strV s => simp [Js.serializeVal]
  · rw [if_neg hpp]
    exact serializeVal_objV_ne_ok_none _

/-- Only the `getWallet` branch can return JS `undefined` (and only when
the wallet service resolves a non-serializable value); every other branch
yields an actual string. -/
lemma executeCommandTry_not_undefined (env : CommandEnv) (cmd uid : String)
    (h : cmd ≠ "getWallet") :
    (executeCommandTry env cmd uid).1 ≠ .ok none := by
  unfold executeCommandTry
  rw [if_neg h]
  by_cases h2 : cmd = "queryRoleData"
  · rw [if_pos h2]
    cases hrd : env.getRoleOnChainData with
    | error e => simp
    | ok rd =>
        cases hsucc : Js.truthy (Js.jsGet rd "success") with
        | false => simp [hsucc]
        | true =>
            simp only [hsucc, Bool.not_true, Bool.false_eq_true, if_false]
            cases hh : (if Js.truthy (Js.jsGet (Js.jsGet rd "role") "health") = true then
                formatDecimal (Js.jsGet (Js.jsGet rd "role") "health") else .ok "0") with
            | error e => simp [hh]
            | ok hstr =>
                cases hb : (if Js.truthy (Js.jsGet (Js.jsGet rd "role") "balance") = true then
                    formatDecimal (Js.jsGet (Js.jsGet rd "role") "balance") else .ok "0") with
                | error e => simp [hh, hb]
                | ok bstr =>
                    simp only [hh, hb]
                    exact serializeVal_objV_ne_ok_none _
  · rw [if_neg h2]
    by_cases h3 : cmd = "getTokens"
    · rw [if_pos h3]
      cases hw : env.getWalletInfo with
      | error e => simp
      | ok w =>
          cases hs1 : Js.truthy (Js.jsGet w "success") <;>
            cases hs2 : Js.truthy (Js.jsGet w "address") <;>
            simp only [hs1, hs2, Bool.not_true, Bool.not_false, Bool.or_true,
              Bool.true_or, Bool.or_false, Bool.false_or, if_true, if_false] <;>
            try simp
          cases ht : env.getAccountBalance (Js.jsGet w "address") with
          | error e => simp
          | ok tr =>
              cases hts : Js.truthy (Js.jsGet tr "success") with
              | false => simp [hts]
              | true =>
                  simp only [hts, Bool.not_true, Bool.false_eq_true, if_false]
                  exact serializeVal_objV_ne_ok_none _
    · rw [if_neg h3]
      by_cases h4 : cmd = "getTokensSummary"
      · rw [if_pos h4]
        cases hw : env.getWalletInfo with
        | error e => simp
        | ok w =>
            cases hs1 : Js.truthy (Js.jsGet w "success") <;>
              cases hs2 : Js.truthy (Js.jsGet w "address") <;>
              simp only [hs1, hs2, Bool.not_true, Bool.not_false, Bool.or_true,
                Bool.true_or, Bool.or_false, Bool.false_or, if_true, if_false] <;>
              try simp
            cases ht : env.getAccountBalanceSummary (Js.jsGet w "address") with
            | error e => simp
            | ok sr =>
                cases hts : Js.truthy (Js.jsGet sr "success") with
                | false => simp [hts]
                | true =>
                    simp only [hts, Bool.not_true, Bool.false_eq_true, if_false]
                    by_cases hsum : Js.truthy (Js.jsGet sr "summary")
                    · simp only [hsum, if_pos]
                      exact serializeVal_objV_ne_ok_none _
                    · simp only [hsum, if_neg]
                      exact serializeVal_objV_ne_ok_none _
      · rw [if_neg h4]
        by_cases h5 : cmd = "querySkillDetails"
        · rw [if_pos h5]
          cases hrd : env.getRoleOnChainData with
          | error e => simp
          | ok rd =>
              cases hsucc : Js.truthy (Js.jsGet rd "success") with
              | false => simp [hsucc]
              | true =>
                  simp only [hsucc, Bool.not_true, Bool.false_eq_true, if_false]
                  exact serializeVal_objV_ne_ok_none _
        · rw [if_neg h5]
          by_cases h6 : cmd = "getProfile"
          · rw [if_pos h6]
            cases hp : env.getProfile with
            | error e => simp
            | ok pr =>
                cases hsucc : Js.truthy (Js.jsGet pr "success") with
                | false => simp [hsucc]
                | true =>
                    simp only [hsucc, Bool.not_true, Bool.false_eq_true, if_false]
                    exact serialize_processProfile_ne_ok_none _
          · rw [if_neg h6]
            by_cases h7 : cmd = "none"
            · rw [if_pos h7]; simp
            · rw [if_neg h7]; simp

end DefaultCommandExecutor

/-- C5: the command dispatcher's `executeCommand` never throws and always
produces a string: `none` returns the fixed sentinel without invoking any
collaborator, an unrecognized token returns the `未知命令` string without
invoking any collaborator, every error raised by a backing service — shown
here for each service the branches call — is caught and converted to the
`执行命令失败: …` failure string, and on every path the returned value is
an actual string (for `getWallet` under the wallet service's contract of
resolving an object). -/
theorem executeCommand_never_throws (env : DefaultCommandExecutor.CommandEnv)
    (uid : String) :
    (DefaultCommandExecutor.executeCommand env "none" uid =
      (some "没有执行任何命令，因为不需要查询数据", [])) ∧
    (∀ cmd, cmd ∉ ["getWallet", "queryRoleData", "getTokens", "getTokensSummary",
        "querySkillDetails", "getProfile", "none"] →
      DefaultCommandExecutor.executeCommand env cmd uid =
        (some ("未知命令: " ++ cmd), [])) ∧
    (∀ e, env.getRoleOnChainData = .error e →
      (DefaultCommandExecutor.executeCommand env "queryRoleData" uid).1 =
          some ("执行命令失败: " ++ e) ∧
      (DefaultCommandExecutor.executeCommand env "querySkillDetails" uid).1 =
          some ("执行命令失败: " ++ e)) ∧
    (∀ rd, env.getRoleOnChainData = .ok rd →
      Js.truthy (Js.jsGet rd "success") = false →
      (DefaultCommandExecutor.executeCommand env "queryRoleData" uid).1 =
        some ("执行命令失败: " ++
          DefaultCommandExecutor.errMsgOr (Js.jsGet rd "message") "获取角色数据失败")) ∧
    (∀ e, env.getWalletInfo = .error e →
      (DefaultCommandExecutor.executeCommand env "getWallet" uid).1 =
          some ("执行命令失败: " ++ e) ∧
      (DefaultCommandExecutor.executeCommand env "getTokens" uid).1 =
          some ("执行命令失败: " ++ e) ∧
      (DefaultCommandExecutor.executeCommand env "getTokensSummary" uid).1 =
          some ("执行命令失败: " ++ e)) ∧
    (∀ w, env.getWalletInfo = .ok w →
      Js.truthy (Js.jsGet w "success") = false →
      (DefaultCommandExecutor.executeCommand env "getTokens" uid).1 =
          some "执行命令失败: 获取钱包地址失败" ∧
      (DefaultCommandExecutor.executeCommand env "getTokensSummary" uid).1 =
          some "执行命令失败: 获取钱包地址失败") ∧
    (∀ w e, env.getWalletInfo = .ok w →
      Js.truthy (Js.jsGet w "success") = true →
      Js.truthy (Js.jsGet w "address") = true →
      env.getAccountBalance (Js.jsGet w "address") = .error e →
      (DefaultCommandExecutor.executeCommand env "getTokens" uid).1 =
        some ("执行命令失败: " ++ e)) ∧
    (∀ e, env.getProfile = .error e →
      (DefaultCommandExecutor.executeCommand env "getProfile" uid).1 =
        some ("执行命令失败: " ++ e)) ∧
    (∀ cmd, cmd ≠ "getWallet" →
      ∃ s, (DefaultCommandExecutor.executeCommand env cmd uid).1 = some s) ∧
    (∀ fs, env.getWalletInfo = .ok (.objV fs) →
      ∃ s, (DefaultCommandExecutor.executeCommand env "getWallet" uid).1 = some s) := by
  refine ⟨?_, ?_, ?_, ?_, ?_, ?_, ?_, ?_, ?_, ?_⟩
  · simp [DefaultCommandExecutor.executeCommand,
      DefaultCommandExecutor.executeCommandTry]
  · intro cmd hmem
    simp only [List.mem_cons, List.not_mem_nil, or_false, not_or] at hmem
    obtain ⟨n1, n2, n3, n4, n5, n6, n7⟩ := hmem
    simp [DefaultCommandExecutor.executeCommand,
      DefaultCommandExecutor.executeCommandTry, n1, n2, n3, n4, n5, n6, n7]
  · intro e hrd
    constructor <;>
      simp [DefaultCommandExecutor.executeCommand,
        DefaultCommandExecutor.executeCommandTry, hrd]
  · intro rd hrd hsucc
    simp [DefaultCommandExecutor.executeCommand,
      DefaultCommandExecutor.executeCommandTry, hrd, hsucc]
  · intro e hw
    refine ⟨?_, ?_, ?_⟩ <;>
      simp [DefaultCommandExecutor.executeCommand,
        DefaultCommandExecutor.executeCommandTry, hw]
  · intro w hw hsucc
    constructor <;>
      simp [DefaultCommandExecutor.executeCommand,
        DefaultCommandExecutor.executeCommandTry, hw, hsucc]
  · intro w e hw hsucc haddr hbal
    simp [DefaultCommandExecutor.executeCommand,
      DefaultCommandExecutor.executeCommandTry, hw, hsucc, haddr, hbal]
  · intro e hp
    simp [DefaultCommandExecutor.executeCommand,
      DefaultCommandExecutor.executeCommandTry, hp]
  · intro cmd hcmd
    have hne := DefaultCommandExecutor.executeCommandTry_not_undefined env cmd uid hcmd
    unfold DefaultCommandExecutor.executeCommand
    cases htry : DefaultCommandExecutor.executeCommandTry env cmd uid with
    | mk r log =>
        cases r with
        | ok s =>
            cases s with
            | none => rw [htry] at hne; simp at hne
            | some s => exact ⟨s, rfl⟩
        | error e => exact ⟨"执行命令失败: " ++ e, rfl⟩
  · intro fs hw
    have hser := DefaultCommandExecutor.serializeVal_objV_ne_ok_none fs
    unfold DefaultCommandExecutor.executeCommand
    have htry : DefaultCommandExecutor.executeCommandTry env "getWallet" uid =
        (Js.serializeVal (.objV fs), ["getWalletInfo"]) := by
      simp [DefaultCommandExecutor.executeCommandTry, hw]
    rw [htry]
    cases hs : Js.serializeVal (.objV fs) with
    | ok s =>
        cases s with
        | none => rw [hs] at hser; simp at hser
        | some s => exact ⟨s, rfl⟩
    | error e => exact ⟨"执行命令失败: " ++ e, rfl⟩

/-- Witness for C5: a concrete environment whose role-data service
rejects; `none`, an unknown token, and the failing `queryRoleData` all
produce the stated strings (and `none` makes no collaborator call). -/
theorem executeCommand_never_throws_witness :
    (DefaultCommandExecutor.executeCommand
        { getWalletInfo := .ok (.objV [("success", .boolV true), ("address", .strV "0xabc")])
          getRoleOnChainData := .error "rpc down"
          getAccountBalance := fun _ => .ok (.objV [("success", .boolV true)])
          getAccountBalanceSummary := fun _ => .ok (.objV [("success", .boolV true)])
          getProfile := .ok (.objV [("success", .boolV true)]) }
        "none" "u" =
      (some "没有执行任何命令，因为不需要查询数据", [])) ∧
    (DefaultCommandExecutor.executeCommand
        { getWalletInfo := .ok (.objV [("success", .boolV true), ("address", .strV "0xabc")])
          getRoleOnChainData := .error "rpc down"
          getAccountBalance := fun _ => .ok (.objV [("success", .boolV true)])
          getAccountBalanceSummary := fun _ => .ok (.objV [("success", .boolV true)])
          getProfile := .ok (.objV [("success", .boolV true)]) }
        "selfDestruct" "u" =
      (some "未知命令: selfDestruct", [])) ∧
    ((DefaultCommandExecutor.executeCommand
        { getWalletInfo := .ok (.objV [("success", .boolV true), ("address", .strV "0xabc")])
          getRoleOnChainData := .error "rpc down"
          getAccountBalance := fun _ => .ok (.objV [("success", .boolV true)])
          getAccountBalanceSummary := fun _ => .ok (.objV [("success", .boolV true)])
          getProfile := .ok (.objV [("success", .boolV true)]) }
        "queryRoleData" "u").1 =
      some "执行命令失败: rpc down") := by
  have h := executeCommand_never_throws
    { getWalletInfo := .ok (.objV [("success", .boolV true), ("address", .strV "0xabc")])
      getRoleOnChainData := .error "rpc down"
      getAccountBalance := fun _ => .ok (.objV [("success", .boolV true)])
      getAccountBalanceSummary := fun _ => .ok (.objV [("success", .boolV true)])
      getProfile := .ok (.objV [("success", .boolV true)]) }
    "u"
  exact ⟨h.1, h.2.1 "selfDestruct" (by decide), (h.2.2.1 "rpc down" rfl).1⟩

/-! ## Exact decimal serialization of chain integers (C6) -/

namespace Js

lemma valLE_decAux : ∀ fuel n, n < fuel → valLE (decAux fuel n) = n := by
  intro fuel
  induction fuel with
  | zero => intro n h; omega
  | succ fuel ih =>
      intro n h
      by_cases h0 : n = 0
      · simp [decAux, h0, valLE]
      · have hd : n / 10 < fuel := by
          have h1 := Nat.div_lt_self (Nat.pos_of_ne_zero h0) (show 1 < 10 by norm_num)
          omega
        rw [show decAux (fuel + 1) n = n % 10 :: decAux fuel (n / 10) by
          simp [decAux, h0]]
        simp only [valLE]
        rw [ih (n / 10) hd]
        omega

lemma decAux_digits_lt : ∀ fuel n d, d ∈ decAux fuel n → d < 10 := by
  intro fuel
  induction fuel with
  | zero => intro n d h; simp [decAux] at h
  | succ fuel ih =>
      intro n d h
      by_cases h0 : n = 0
      · simp [decAux, h0] at h
      · rw [decAux, if_neg h0] at h
        rcases List.mem_cons.mp h with h | h
        · rw [h]; exact Nat.mod_lt _ (by norm_num)
        · exact ih _ _ h

lemma digitVal_digitChar (d : Nat) (h : d < 10) : (Nat.digitChar d).toNat - 48 = d := by
  interval_cases d <;> rfl

lemma foldl_digitsVal_acc :
    ∀ (cs : List Char) (acc : Nat),
      cs.foldl (fun a c => a * 10 + (c.toNat - 48)) acc =
        acc * 10 ^ cs.length + cs.foldl (fun a c => a * 10 + (c.toNat - 48)) 0 := by
  intro cs
  induction cs with
  | nil => intro acc; simp
  | cons c cs ih =>
      intro acc
      simp only [List.foldl_cons, List.length_cons]
      rw [ih (acc * 10 + (c.toNat - 48)), ih (0 * 10 + (c.toNat - 48))]
      ring

lemma digitsVal_append (a b : List Char) :
    DefaultCommandExecutor.digitsVal (a ++ b) =
      DefaultCommandExecutor.digitsVal a * 10 ^ b.length +
        DefaultCommandExecutor.digitsVal b := by
  unfold DefaultCommandExecutor.digitsVal
  rw [List.foldl_append, foldl_digitsVal_acc]

lemma digitsVal_replicate_zero (k : Nat) :
    DefaultCommandExecutor.digitsVal (List.replicate k '0') = 0 := by
  induction k with
  | zero => rfl
  | succ k ih =>
      unfold DefaultCommandExecutor.digitsVal at ih ⊢
      rw [List.replicate_succ, List.foldl_cons]
      simpa using ih

lemma digitsVal_rev_map (ds : List Nat) (h : ∀ d ∈ ds, d < 10) :
    ∀ acc : Nat,
      (ds.reverse.map Nat.digitChar).foldl (fun a c => a * 10 + (c.toNat - 48)) acc =
        acc * 10 ^ ds.length + valLE ds := by
  induction ds with
  | nil => intro acc; simp [valLE]
  | cons d ds ih =>
      intro acc
      rw [List.reverse_cons, List.map_append, List.foldl_append]
      rw [ih (fun x hx => h x (by simp [hx])) acc]
      simp only [List.map_cons, List.map_nil, List.foldl_cons, List.foldl_nil,
        List.length_cons, valLE]
      rw [digitVal_digitChar d (h d (by simp))]
      ring

/-- `BigInt.prototype.toString()` is exact: parsing the rendered digits
back recovers the integer. -/
lemma digitsVal_decChars (n : Nat) :
    DefaultCommandExecutor.digitsVal (decChars n) = n := by
  by_cases h0 : n = 0
  · rw [h0]; rfl
  · unfold decChars
    rw [if_neg h0]
    unfold DefaultCommandExecutor.digitsVal
    rw [digitsVal_rev_map (decDigitsLE n) (fun d hd => decAux_digits_lt _ _ d hd) 0]
    have hv : valLE (decDigitsLE n) = n := valLE_decAux (n + 1) n (by omega)
    rw [hv]
    simp

/-- `formatDecimal` is exact: the output splits at the decimal point into
an integer part and a 9-digit fractional part whose combined value is the
original integer — no precision loss at any width. -/
lemma formatDecimalCore_decChars_exact (n : Nat) :
    ∃ ip fp,
      DefaultCommandExecutor.formatDecimalCore (decChars n) 9 = ip ++ '.' :: fp ∧
      fp.length = 9 ∧
      DefaultCommandExecutor.digitsVal ip * 10 ^ 9 +
        DefaultCommandExecutor.digitsVal fp = n := by
  have hval := digitsVal_decChars n
  set s := decChars n with hs
  by_cases hle : s.length ≤ 9
  · refine ⟨['0'], List.replicate (9 - s.length) '0' ++ s, ?_, ?_, ?_⟩
    · unfold DefaultCommandExecutor.formatDecimalCore
      rw [if_pos hle]
      simp
    · simp
      omega
    · rw [digitsVal_append, digitsVal_replicate_zero]
      have hz : DefaultCommandExecutor.digitsVal ['0'] = 0 := rfl
      rw [hz, hval]
      simp
  · refine ⟨s.take (s.length - 9), s.drop (s.length - 9), ?_, ?_, ?_⟩
    · unfold DefaultCommandExecutor.formatDecimalCore
      rw [if_neg hle]
    · rw [List.length_drop]
      omega
    · have hsplit : s.take (s.length - 9) ++ s.drop (s.length - 9) = s :=
        List.take_append_drop _ s
      have := digitsVal_append (s.take (s.length - 9)) (s.drop (s.length - 9))
      rw [hsplit, hval] at this
      rw [List.length_drop] at this
      have h9 : s.length - (s.length - 9) = 9 := by omega
      rw [h9] at this
      omega

end Js

/-- C6: on the `queryRoleData` success path the arbitrary-precision chain
values are serialized as exact decimal strings — `rawHealth`/`rawBalance`
via `toString` (whose digits parse back to the original integer), and
`health`/`balance` via `formatDecimal`, which inserts a decimal point 9
digits from the right without any floating-point conversion, so the
rendered parts recombine to the exact integer; `JSON.stringify` succeeds
(no `BigInt` reaches it) and the full output string is the one shown, at
any integer width. -/
theorem queryRoleData_exact_decimal (env : DefaultCommandExecutor.CommandEnv)
    (uid id : String) (h b : Nat) (hh : h ≠ 0) (hb : b ≠ 0)
    (henv : env.getRoleOnChainData = .ok (.objV
      [("success", .boolV true),
       ("role", .objV
         [("id", .strV id), ("health", .bigintV h),
          ("balance", .bigintV b), ("skills", .arrV [])])])) :
    DefaultCommandExecutor.executeCommand env "queryRoleData" uid =
      (some ("\x7b" ++ String.intercalate ","
        ["\"roleId\":" ++ Js.jsonQuote id,
         "\"health\":" ++
           Js.jsonQuote (String.mk (DefaultCommandExecutor.formatDecimalCore (Js.decChars h) 9)),
         "\"rawHealth\":" ++ Js.jsonQuote (Js.decRepr h),
         "\"balance\":" ++
           Js.jsonQuote (String.mk (DefaultCommandExecutor.formatDecimalCore (Js.decChars b) 9)),
         "\"rawBalance\":" ++ Js.jsonQuote (Js.decRepr b),
         "\"skills\":[]"] ++ "\x7d"), ["getRoleOnChainData"]) ∧
    (∀ n : Nat, DefaultCommandExecutor.digitsVal (Js.decChars n) = n) ∧
    (∀ n : Nat, ∃ ip fp,
      DefaultCommandExecutor.formatDecimalCore (Js.decChars n) 9 = ip ++ '.' :: fp ∧
      fp.length = 9 ∧
      DefaultCommandExecutor.digitsVal ip * 10 ^ 9 +
        DefaultCommandExecutor.digitsVal fp = n) := by
  refine ⟨?_, Js.digitsVal_decChars, Js.formatDecimalCore_decChars_exact⟩
  have k1 : Js.jsonQuote "roleId" = "\"roleId\"" := by decide
  have k2 : Js.jsonQuote "health" = "\"health\"" := by decide
  have k3 : Js.jsonQuote "rawHealth" = "\"rawHealth\"" := by decide
  have k4 : Js.jsonQuote "balance" = "\"balance\"" := by decide
  have k5 : Js.jsonQuote "rawBalance" = "\"rawBalance\"" := by decide
  have k6 : Js.jsonQuote "skills" = "\"skills\"" := by decide
  simp only [DefaultCommandExecutor.executeCommand,
    DefaultCommandExecutor.executeCommandTry, henv]
  simp only [Js.jsGet, List.find?, Js.truthy]
  by_cases hid0 : id = ""
  · subst hid0
    simp [DefaultCommandExecutor.formatDecimal, hh, hb, Js.truthy, Js.jsOr,
      Js.serializeVal, Js.serializeObj, Js.serializeArr, Js.toStr, Js.decRepr,
      Bind.bind, Except.bind, k1, k2, k3, k4, k5, k6,
      String.intercalate, String.intercalate.go, String.append_assoc]
  · simp [DefaultCommandExecutor.formatDecimal, hh, hb, hid0, Js.truthy, Js.jsOr,
      Js.serializeVal, Js.serializeObj, Js.serializeArr, Js.toStr, Js.decRepr,
      Bind.bind, Except.bind, k1, k2, k3, k4, k5, k6,
      String.intercalate, String.intercalate.go, String.append_assoc]

/-- Witness for C6 at a 256-bit-scale balance (`2^255 + 12345`): the
dispatcher output is the exact JSON string, its digits parse back to the
original integer, and on a small concrete value `formatDecimal` places the
decimal point 9 digits from the right. -/
theorem queryRoleData_exact_decimal_witness :
    DefaultCommandExecutor.executeCommand
        { getWalletInfo := .ok (.objV [])
          getRoleOnChainData := .ok (.objV
            [("success", .boolV true),
             ("role", .objV
               [("id", .strV "role-1"), ("health", .bigintV (10 ^ 30 + 7)),
                ("balance", .bigintV (2 ^ 255 + 12345)), ("skills", .arrV [])])])
          getAccountBalance := fun _ => .ok (.objV [])
          getAccountBalanceSummary := fun _ => .ok (.objV [])
          getProfile := .ok (.objV []) }
        "queryRoleData" "u" =
      (some ("\x7b" ++ String.intercalate ","
        ["\"roleId\":" ++ Js.jsonQuote "role-1",
         "\"health\":" ++
           Js.jsonQuote (String.mk
             (DefaultCommandExecutor.formatDecimalCore (Js.decChars (10 ^ 30 + 7)) 9)),
         "\"rawHealth\":" ++ Js.jsonQuote (Js.decRepr (10 ^ 30 + 7)),
         "\"balance\":" ++
           Js.jsonQuote (String.mk
             (DefaultCommandExecutor.formatDecimalCore (Js.decChars (2 ^ 255 + 12345)) 9)),
         "\"rawBalance\":" ++ Js.jsonQuote (Js.decRepr (2 ^ 255 + 12345)),
         "\"skills\":[]"] ++ "\x7d"), ["getRoleOnChainData"]) ∧
    DefaultCommandExecutor.digitsVal (Js.decChars (2 ^ 255 + 12345)) =
      2 ^ 255 + 12345 ∧
    DefaultCommandExecutor.formatDecimalCore (Js.decChars 1234567890123) 9 =
      "1234.567890123".data := by
  have hmain := queryRoleData_exact_decimal
    { getWalletInfo := .ok (.objV [])
      getRoleOnChainData := .ok (.objV
        [("success", .boolV true),
         ("role", .objV
           [("id", .strV "role-1"), ("health", .bigintV (10 ^ 30 + 7)),
            ("balance", .bigintV (2 ^ 255 + 12345)), ("skills", .arrV [])])])
      getAccountBalance := fun _ => .ok (.objV [])
      getAccountBalanceSummary := fun _ => .ok (.objV [])
      getProfile := .ok (.objV []) }
    "u" "role-1" (10 ^ 30 + 7) (2 ^ 255 + 12345)
    (by decide) (by decide) rfl
  exact ⟨hmain.1, hmain.2.1 _, by decide⟩

/-! ## The fabrication guard (C7) and the marker-seeking retry loop (C8) -/

/-- C7: any LLM response that matches a numeric-claim fabrication pattern
and contains no `$execute:<token>` marker is coerced to the `none` path:
`hasCommands = true`, `isNoneCommand = true`, no command is dispatched
(empty dispatch log and empty results), whatever the coordinator and
dispatch behaviour. -/
theorem executeCommands_fabrication_guard (coordinatorSet : Bool)
    (dispatch : String → String) (resp : String)
    (hfab : ChatService.hasFabricatedData resp.data = true)
    (hnom : ChatService.findMarkers resp.data = []) :
    ChatService.executeCommands coordinatorSet dispatch resp =
      (ChatService.noneResult, []) := by
  unfold ChatService.executeCommands
  by_cases hn : ChatService.noneCommandTest resp.data
  · simp [hn]
  · cases coordinatorSet with
    | false => simp [hn, hfab]
    | true => simp [hn, hfab, hnom]

/-- Witness for C7: the marker-free reply `余额: 100` (a fabricated
balance figure) is coerced to the `none` result with nothing executed. -/
theorem executeCommands_fabrication_guard_witness :
    ChatService.executeCommands true (fun _ => "") "余额: 100" =
      (ChatService.noneResult, []) :=
  executeCommands_fabrication_guard true (fun _ => "") "余额: 100"
    (by decide) (by decide)

/-- C8-counterexample: three marker-free completions, the last of which
matches a fabrication pattern.  The loop exhausts its 3-attempt bound on a
non-empty, marker-free final completion, yet the reply is that completion
verbatim — not prefixed with the unverified-data warning — because the
fabrication guard coerced it to the `none` path. -/
theorem processMessage_warning_cex :
    (ChatService.chatLoop
        (fun n => if n = 1 then "Let me check that." else
          if n = 2 then "One moment." else "balance: 100")
        true (fun _ => "")).attempts = 3 ∧
    (ChatService.chatLoop
        (fun n => if n = 1 then "Let me check that." else
          if n = 2 then "One moment." else "balance: 100")
        true (fun _ => "")).completion = "balance: 100" ∧
    ChatService.findMarkers "balance: 100".data = [] ∧
    ChatService.processMessageChat
        (fun n => if n = 1 then "Let me check that." else
          if n = 2 then "One moment." else "balance: 100")
        none true (fun _ => "") = "balance: 100" ∧
    ChatService.processMessageChat
        (fun n => if n = 1 then "Let me check that." else
          if n = 2 then "One moment." else "balance: 100")
        none true (fun _ => "") ≠
      ChatService.unverifiedWarning ++ "balance: 100" := by
  refine ⟨by decide, by decide, by decide, by decide, by decide⟩

namespace ChatService

lemma executeCommands_hasCommands_false_shape (c : Bool) (d : String → String)
    (s : String) (h : (executeCommands c d s).1.hasCommands = false) :
    (executeCommands c d s).1 = emptyResult := by
  unfold executeCommands at h ⊢
  by_cases hn : noneCommandTest s.data
  · simp [hn, noneResult] at h
  · cases c with
    | false =>
        by_cases hf : hasFabricatedData s.data
        · simp [hn, hf, noneResult] at h
        · simp [hn, hf]
    | true =>
        by_cases hm : (findMarkers s.data).isEmpty
        · by_cases hf : hasFabricatedData s.data
          · simp [hn, hm, hf, noneResult] at h
          · simp [hn, hm, hf]
        · simp [hn, hm] at h

lemma chatLoopGo_spec (provider : ℕ → String) (coordinatorSet : Bool)
    (dispatch : String → String) :
    ∀ (fuel attempts : Nat) (prevExec : ExecCmdResult),
      attempts ≤ (chatLoopGo provider coordinatorSet dispatch prevExec fuel attempts).attempts ∧
      (chatLoopGo provider coordinatorSet dispatch prevExec fuel attempts).attempts ≤
        attempts + fuel ∧
      ((chatLoopGo provider coordinatorSet dispatch prevExec fuel attempts).completion ≠ "" →
        (chatLoopGo provider coordinatorSet dispatch prevExec fuel attempts).exec =
          (executeCommands coordinatorSet dispatch
            (chatLoopGo provider coordinatorSet dispatch prevExec fuel attempts).completion).1 ∧
        ((chatLoopGo provider coordinatorSet dispatch prevExec fuel attempts).attempts < 3 →
          (chatLoopGo provider coordinatorSet dispatch prevExec fuel
            attempts).exec.hasCommands = true)) := by
  intro fuel
  induction fuel with
  | zero =>
      intro attempts prevExec
      refine ⟨le_refl _, by simp [chatLoopGo], ?_⟩
      intro h
      simp [chatLoopGo] at h
  | succ fuel ih =>
      intro attempts prevExec
      unfold chatLoopGo
      by_cases hc : provider (attempts + 1) = ""
      · simp only [hc, if_pos]
        exact ⟨by simp, by omega, by intro h; simp at h⟩
      · simp only [hc, if_false]
        by_cases hgo : (¬ (executeCommands coordinatorSet dispatch
            (provider (attempts + 1))).1.hasCommands && attempts + 1 < 3) = true
        · rw [if_pos hgo]
          obtain ⟨h1, h2, h3⟩ := ih (attempts + 1)
            (executeCommands coordinatorSet dispatch (provider (attempts + 1))).1
          exact ⟨by omega, by omega, h3⟩
        · rw [if_neg hgo]
          refine ⟨by simp, by simp, ?_⟩
          intro _
          refine ⟨rfl, ?_⟩
          intro hlt
          simp only [Bool.and_eq_true, decide_eq_true_eq, not_and, not_lt] at hgo
          by_contra hfalse
          simp only [Bool.not_eq_true] at hfalse
          have h3le := hgo (by rw [hfalse]; simp)
          simp only at hlt
          omega

end ChatService

/-- C8-amended: the marker-seeking loop calls the completion provider at
most 3 times and stops early only when a response is empty or when
`executeCommands` reports a command for it — which, with the coordinator
set, happens exactly when the response contains a `$execute:` marker,
contains `$execute:none` (case-insensitively), or trips the fabrication
guard; when the bound is exhausted and the final non-empty response yields
no command at all (no marker and no fabrication match), the reply is that
completion prefixed with the unverified-data warning. -/
theorem chatLoop_bounded_and_warning (provider : ℕ → String)
    (coordinatorSet : Bool) (dispatch : String → String)
    (finalProvider : Option String) :
    (ChatService.chatLoop provider coordinatorSet dispatch).attempts ≤ 3 ∧
    ((ChatService.chatLoop provider coordinatorSet dispatch).completion ≠ "" →
      (ChatService.chatLoop provider coordinatorSet dispatch).exec =
        (ChatService.executeCommands coordinatorSet dispatch
          (ChatService.chatLoop provider coordinatorSet dispatch).completion).1 ∧
      ((ChatService.chatLoop provider coordinatorSet dispatch).attempts < 3 →
        (ChatService.chatLoop provider coordinatorSet
          dispatch).exec.hasCommands = true)) ∧
    ((ChatService.chatLoop provider coordinatorSet dispatch).completion ≠ "" →
      (ChatService.chatLoop provider coordinatorSet
          dispatch).exec.hasCommands = false →
      ChatService.processMessageChat provider finalProvider coordinatorSet dispatch =
        ChatService.unverifiedWarning ++
          (ChatService.chatLoop provider coordinatorSet dispatch).completion) ∧
    (∀ s : String,
      (ChatService.executeCommands true dispatch s).1.hasCommands = false ↔
        (ChatService.findMarkers s.data = [] ∧
         ChatService.hasFabricatedData s.data = false ∧
         ChatService.noneCommandTest s.data = false)) := by
  obtain ⟨h1, h2, h3⟩ := ChatService.chatLoopGo_spec provider coordinatorSet dispatch 3 0
    { hasCommands := false, isNoneCommand := false
      executedCommands := [], resultsDescription := "" }
  have hdef : ChatService.chatLoop provider coordinatorSet dispatch =
      ChatService.chatLoopGo provider coordinatorSet dispatch
        { hasCommands := false, isNoneCommand := false
          executedCommands := [], resultsDescription := "" } 3 0 := rfl
  rw [← hdef] at h1 h2 h3
  refine ⟨by omega, h3, ?_, ?_⟩
  · intro hne hfalse
    have hiso : (ChatService.chatLoop provider coordinatorSet
        dispatch).exec.isNoneCommand = false := by
      have hshape := ChatService.executeCommands_hasCommands_false_shape
        coordinatorSet dispatch
        (ChatService.chatLoop provider coordinatorSet dispatch).completion
        (by rw [← (h3 hne).1]; exact hfalse)
      rw [(h3 hne).1, hshape]
      rfl
    unfold ChatService.processMessageChat ChatService.responseTextAfterLoop
    rw [if_neg hne]
    rw [if_neg (by simp [hfalse])]
    rw [if_neg (by simp [hiso])]
  · intro s
    unfold ChatService.executeCommands
    by_cases hn : ChatService.noneCommandTest s.data
    · simp [hn, ChatService.noneResult]
    · by_cases hf : ChatService.hasFabricatedData s.data
      · by_cases hm : (ChatService.findMarkers s.data).isEmpty
        · simp [hn, hf, hm, ChatService.noneResult]
        · simp [hn, hf, hm, List.isEmpty_iff]
      · by_cases hm : (ChatService.findMarkers s.data).isEmpty
        · have hm2 : ChatService.findMarkers s.data = [] := by
            simpa [List.isEmpty_iff] using hm
          simp [hn, hf, hm2, ChatService.emptyResult]
        · have hm2 : ¬ ChatService.findMarkers s.data = [] := by
            simpa [List.isEmpty_iff] using hm
          simp [hn, hf, hm2]

/-- Witness for C8-amended: three clean marker-free completions exhaust
the bound and the reply is the warning-prefixed final completion. -/
theorem chatLoop_bounded_and_warning_witness :
    (ChatService.chatLoop (fun _ => "hello there") true (fun _ => "")).attempts ≤ 3 ∧
    ChatService.processMessageChat (fun _ => "hello there") none true (fun _ => "") =
      ChatService.unverifiedWarning ++ "hello there" := by
  have h := chatLoop_bounded_and_warning (fun _ => "hello there") true (fun _ => "") none
  exact ⟨h.1, by
    have := h.2.2.1 (by decide) (by decide)
    simpa using this⟩

/-! ## Task status monotonicity (C4) -/

namespace TaskPlan

lemma findPendingIdx_spec (ts : List Task) (j i : Nat)
    (h : findPendingIdx ts j = some i) :
    ∃ k, i = j + k ∧ ∃ t, ts.get? k = some t ∧ t.status = .pending := by
  induction ts generalizing j with
  | nil => simp [findPendingIdx] at h
  | cons t ts ih =>
      by_cases hp : t.status = .pending
      · simp [findPendingIdx, hp] at h
        exact ⟨0, by omega, t, by simp, hp⟩
      · simp [findPendingIdx, hp] at h
        obtain ⟨k, hk, t', ht', hs⟩ := ih (j + 1) h
        exact ⟨k + 1, by omega, t', by simpa using ht', hs⟩

lemma getElem?_modify_ne {i j : Nat} (h : i ≠ j) (l : List Task) (f : Task → Task) :
    (l.modify f j)[i]? = l[i]? := by
  induction l generalizing i j with
  | nil => simp
  | cons a l ih =>
      cases j with
      | zero =>
          cases i with
          | zero => omega
          | succ i => simp [List.modify]
      | succ j =>
          cases i with
          | zero => simp [List.modify]
          | succ i => simpa [List.modify] using ih (i := i) (j := j) (by omega)

end TaskPlan

/-- C4-counterexample: the raw `TaskPlan` mutators do not protect terminal
tasks.  On a one-task plan, `getNextTask` + `completeCurrentTask("A")`
leaves the task COMPLETED with result `A`; a further bare
`startCurrentTask()` drives the COMPLETED task back to RUNNING, and a bare
`failCurrentTask("B")` rewrites both its status and its result. -/
theorem taskplan_terminal_mutable_cex :
    ((TaskPlanOps.applyRawOps [.next, .complete (some "A")]
        (TaskPlan.addTask "t" none (TaskPlan.newPlan "u" "m"))).tasks.get? 0).map
        (fun t => (t.status, t.result)) = some (.completed, some "A") ∧
    ((TaskPlanOps.applyRawOps [.next, .complete (some "A"), .start]
        (TaskPlan.addTask "t" none (TaskPlan.newPlan "u" "m"))).tasks.get? 0).map
        (·.status) = some .running ∧
    ((TaskPlanOps.applyRawOps [.next, .complete (some "A"), .fail "B"]
        (TaskPlan.addTask "t" none (TaskPlan.newPlan "u" "m"))).tasks.get? 0).map
        (fun t => (t.status, t.result)) = some (.failed, some "B") := by
  decide

/-- C4-amended: `getNextTask` never selects a COMPLETED or FAILED task,
and under the executor's calling discipline — where every
`startCurrentTask` / `completeCurrentTask` / `failCurrentTask` happens
inside a round opened by `getNextTask` on the task it selected — a task
that is COMPLETED or FAILED never changes again (status, result or any
other field), however many rounds and `addTask` calls follow. -/
theorem taskplan_terminal_immutable
    (st : PlanState) (t : Task) :
    (∀ st', TaskPlan.getNextTask st = (some t, st') → t.status = .pending) ∧
    (∀ ops i, st.tasks.get? i = some t → TaskPlanOps.terminal t = true →
      (TaskPlanOps.applyExecOps ops st).tasks.get? i = some t) := by
  constructor
  · intro st' h
    unfold TaskPlan.getNextTask at h
    cases hf : TaskPlan.findPendingIdx st.tasks 0 with
    | none => rw [hf] at h; simp at h
    | some idx =>
        rw [hf] at h
        have hget : st.tasks.get? idx = some t := by
          simpa using congrArg Prod.fst h
        obtain ⟨k, hk, t', ht', hs⟩ := TaskPlan.findPendingIdx_spec st.tasks 0 idx hf
        have hik : k = idx := by omega
        rw [hik, hget] at ht'
        have := Option.some.inj ht'
        rw [← this] at hs
        exact hs
  · intro ops i hi ht
    induction ops generalizing st with
    | nil => simpa [TaskPlanOps.applyExecOps] using hi
    | cons op ops ih =>
        have hstep : (TaskPlanOps.applyExecOp op st).tasks.get? i = some t := by
          have hlt : i < st.tasks.length := by
            by_contra hc
            rw [List.get?_eq_none.mpr (by omega)] at hi
            exact Option.noConfusion hi
          have hi' : st.tasks[i]? = some t := by simpa using hi
          cases op with
          | add d c =>
              simp only [TaskPlanOps.applyExecOp, TaskPlan.addTask]
              rw [List.get?_eq_getElem?, List.getElem?_append_left hlt,
                ← List.get?_eq_getElem?]
              exact hi
          | round outcome =>
              cases hf : TaskPlan.findPendingIdx st.tasks 0 with
              | none =>
                  have hgn : TaskPlan.getNextTask st = (none, st) := by
                    unfold TaskPlan.getNextTask
                    rw [hf]
                  simpa [TaskPlanOps.applyExecOp, hgn] using hi'
              | some j =>
                  obtain ⟨k, hk, t', ht', hs⟩ :=
                    TaskPlan.findPendingIdx_spec st.tasks 0 j hf
                  have hjk : k = j := by omega
                  rw [hjk] at ht'
                  have hji : i ≠ j := by
                    intro hji
                    rw [← hji, hi] at ht'
                    have hteq := Option.some.inj ht'
                    rw [← hteq] at hs
                    simp [TaskPlanOps.terminal, hs] at ht
                  have ht'' : st.tasks[j]? = some t' := by simpa using ht'
                  have hgn : TaskPlan.getNextTask st =
                      (some t', { st with currentTaskIndex := (j : Int) }) := by
                    unfold TaskPlan.getNextTask
                    rw [hf]
                    simp [ht'']
                  have hne : ((j : Int)) ≠ -1 := by omega
                  cases outcome with
                  | ok r =>
                      simpa [TaskPlanOps.applyExecOp, hgn, TaskPlan.startCurrentTask,
                        TaskPlan.completeCurrentTask, TaskPlan.modifyCurrent, hne,
                        TaskPlan.getElem?_modify_ne hji] using hi'
                  | error e =>
                      simpa [TaskPlanOps.applyExecOp, hgn, TaskPlan.startCurrentTask,
                        TaskPlan.failCurrentTask, TaskPlan.modifyCurrent, hne,
                        TaskPlan.getElem?_modify_ne hji] using hi'
        have hfold : TaskPlanOps.applyExecOps (op :: ops) st =
            TaskPlanOps.applyExecOps ops (TaskPlanOps.applyExecOp op st) := by
          simp [TaskPlanOps.applyExecOps]
        rw [hfold]
        exact ih _ hstep

/-! ## The executor drains every plan (C3) -/

namespace TaskExecutor

open TaskPlan

lemma findPendingIdx_none (ts : List Task) (j : Nat)
    (h : ∀ t ∈ ts, t.status ≠ .pending) : findPendingIdx ts j = none := by
  induction ts generalizing j with
  | nil => simp [findPendingIdx]
  | cons t ts ih =>
      have := h t (by simp)
      simp [findPendingIdx, this]
      exact ih (j + 1) (fun t ht => h t (by simp [ht]))

lemma findPendingIdx_append_pending (done : List Task) (r : Task) (rs : List Task)
    (j : Nat) (hdone : ∀ t ∈ done, t.status ≠ .pending) (hr : r.status = .pending) :
    findPendingIdx (done ++ r :: rs) j = some (j + done.length) := by
  induction done generalizing j with
  | nil => simp [findPendingIdx, hr]
  | cons d done ih =>
      have hd := hdone d (by simp)
      simp only [List.cons_append, findPendingIdx]
      rw [if_neg hd]
      show findPendingIdx (done ++ r :: rs) (j + 1) = _
      rw [ih (j + 1) (fun t ht => hdone t (by simp [ht]))]
      simp only [List.length_cons, Option.some.injEq]
      omega

lemma get?_append_cons (done : List Task) (r : Task) (rs : List Task) :
    (done ++ r :: rs).get? done.length = some r := by
  induction done with
  | nil => simp
  | cons d done ih => simpa using ih

lemma modify_append_cons (done : List Task) (r : Task) (rs : List Task)
    (f : Task → Task) :
    (done ++ r :: rs).modify f done.length = done ++ f r :: rs := by
  induction done with
  | nil => simp [List.modify]
  | cons d done ih => simpa [List.modify] using ih

/-- One `executeTask` call on the task `getNextTask` just selected. -/
lemma executeTask_at (dispatch : String → String → Except String String)
    (uid msg : String) (done rs : List Task) (r : Task) :
    executeTask dispatch r
      { tasks := done ++ r :: rs, currentTaskIndex := (done.length : Int),
        userId := uid, userMessage := msg } =
    (taskOutcome dispatch uid r,
      { tasks := done ++ taskAfter dispatch uid r :: rs,
        currentTaskIndex := (done.length : Int), userId := uid, userMessage := msg }) := by
  have hne : ((done.length : Int)) ≠ -1 := by omega
  unfold executeTask taskOutcome taskAfter
  cases hc : r.command with
  | none =>
      simp [startCurrentTask, completeCurrentTask, modifyCurrent, hne, hc,
        modify_append_cons]
  | some cmd =>
      cases hd : dispatch cmd uid with
      | ok res =>
          simp [startCurrentTask, completeCurrentTask, modifyCurrent, hne, hc, hd,
            modify_append_cons]
      | error e =>
          simp [startCurrentTask, failCurrentTask, modifyCurrent, hne, hc, hd,
            modify_append_cons]

lemma taskAfter_terminal (dispatch : String → String → Except String String)
    (uid : String) (t : Task) :
    (taskAfter dispatch uid t).status = .completed ∨
    (taskAfter dispatch uid t).status = .failed := by
  unfold taskAfter
  cases hc : t.command with
  | none => simp [hc]
  | some cmd => cases hd : dispatch cmd uid <;> simp [hc, hd]

/-- The drain loop processes the remaining PENDING tasks in order, leaving
the already-terminal prefix untouched. -/
lemma runLoop_drains (dispatch : String → String → Except String String)
    (uid msg : String) (rest : List Task) :
    ∀ (done : List Task) (idx : Int),
    (∀ t ∈ done, t.status ≠ .pending) →
    (∀ t ∈ rest, t.status = .pending) →
    runLoop (rest.length + 1) dispatch
      { tasks := done ++ rest, currentTaskIndex := idx,
        userId := uid, userMessage := msg } =
    (rest.map (taskOutcome dispatch uid),
      { tasks := done ++ rest.map (taskAfter dispatch uid),
        currentTaskIndex :=
          if rest.isEmpty then idx else ((done.length : Int) + rest.length - 1),
        userId := uid, userMessage := msg }) := by
  induction rest with
  | nil =>
      intro done idx hdone _
      have hf : findPendingIdx done 0 = none := findPendingIdx_none _ 0 hdone
      simp [runLoop, getNextTask, hf]
  | cons r rs ih =>
      intro done idx hdone hrest
      have hr : r.status = .pending := hrest r (by simp)
      have hf : findPendingIdx (done ++ r :: rs) 0 = some done.length := by
        simpa using findPendingIdx_append_pending done r rs 0 hdone hr
      show runLoop (rs.length + 1 + 1) dispatch _ = _
      rw [runLoop]
      unfold getNextTask
      rw [hf]
      simp only [get?_append_cons]
      rw [executeTask_at]
      have hdone' : ∀ t ∈ done ++ [taskAfter dispatch uid r], t.status ≠ .pending := by
        intro t ht
        rcases List.mem_append.mp ht with h | h
        · exact hdone t h
        · have := taskAfter_terminal dispatch uid r
          simp at h
          rcases this with h2 | h2 <;> rw [h, h2] <;> simp
      have hrs : ∀ t ∈ rs, t.status = .pending := fun t ht => hrest t (by simp [ht])
      have hihx := ih (done ++ [taskAfter dispatch uid r]) (done.length : Int) hdone' hrs
      rw [List.append_assoc] at hihx
      simp only [List.singleton_append] at hihx
      rw [hihx]
      cases rs with
      | nil => simp
      | cons r2 rs2 =>
          simp [List.append_assoc, Prod.mk.injEq, PlanState.mk.injEq]
          omega

end TaskExecutor

/-- C3: `executePlan` drives every task of an (all-PENDING) plan to a
terminal state and never aborts on a failure: afterwards `isCompleted()`
holds; each command task ends COMPLETED with the dispatcher's string as
its result when its dispatch succeeds, and FAILED with the error message
recorded as its result when its dispatch throws (the loop continuing with
the remaining tasks); command-less tasks complete with the fixed
bookkeeping string; and the returned string is the double-newline-joined
concatenation, in task order, of every task's per-task result string
(`执行失败: <message>` for failed tasks, the recorded result otherwise). -/
theorem executePlan_drains (dispatch : String → String → Except String String)
    (st : PlanState) (hp : ∀ t ∈ st.tasks, t.status = .pending) :
    (TaskExecutor.executePlan dispatch st).1 =
      String.intercalate "\n\n"
        (st.tasks.map (TaskExecutor.taskOutcome dispatch st.userId)) ∧
    (TaskExecutor.executePlan dispatch st).2.tasks =
      st.tasks.map (TaskExecutor.taskAfter dispatch st.userId) ∧
    TaskPlan.isCompleted (TaskExecutor.executePlan dispatch st).2 = true ∧
    (∀ t cmd r, t.command = some cmd → dispatch cmd st.userId = .ok r →
      TaskExecutor.taskAfter dispatch st.userId t =
        { t with status := .completed, result := some r }) ∧
    (∀ t cmd e, t.command = some cmd → dispatch cmd st.userId = .error e →
      TaskExecutor.taskAfter dispatch st.userId t =
        { t with status := .failed, result := some e }) ∧
    (∀ t cmd e, t.command = some cmd → dispatch cmd st.userId = .error e →
      TaskExecutor.taskOutcome dispatch st.userId t = "执行失败: " ++ e) := by
  cases st with
  | mk tasks0 idx0 uid0 msg0 =>
    have hloop := TaskExecutor.runLoop_drains dispatch uid0 msg0
      tasks0 [] idx0 (by simp) (by simpa using hp)
    simp only [List.nil_append] at hloop
    refine ⟨?_, ?_, ?_, ?_, ?_, ?_⟩
    · simp [TaskExecutor.executePlan, hloop]
    · simp [TaskExecutor.executePlan, hloop]
    · have hterm : ∀ t' ∈ List.map (TaskExecutor.taskAfter dispatch uid0) tasks0,
          t'.status = TaskStatus.completed ∨ t'.status = TaskStatus.failed := by
        intro t' ht'
        obtain ⟨t, _, rfl⟩ := List.mem_map.mp ht'
        exact TaskExecutor.taskAfter_terminal dispatch uid0 t
      simp only [TaskExecutor.executePlan, hloop, TaskPlan.isCompleted,
        List.all_eq_true]
      intro x hx
      rcases hterm x hx with h | h <;> simp [h]
    · intro t cmd r hc hd
      simp [TaskExecutor.taskAfter, hc, hd]
    · intro t cmd e hc hd
      simp [TaskExecutor.taskAfter, hc, hd]
    · intro t cmd e hc hd
      simp [TaskExecutor.taskOutcome, hc, hd]

/-- Witness for C3 at the spec's 3-command-task scenario: only task 2's
dispatch throws; tasks 1 and 3 end COMPLETED, task 2 ends FAILED with the
error message as its result, `isCompleted()` holds, and the output joins
all three per-task strings. -/
theorem executePlan_drains_witness :
    (TaskExecutor.executePlan
        (fun cmd _ => if cmd = "getTokens" then .error "boom" else .ok ("OK:" ++ cmd))
        { tasks :=
            [{ id := "task-1", description := "a", status := .pending,
               command := some "getProfile", result := none },
             { id := "task-2", description := "b", status := .pending,
               command := some "getTokens", result := none },
             { id := "task-3", description := "c", status := .pending,
               command := some "getWallet", result := none }],
          currentTaskIndex := -1, userId := "u", userMessage := "m" }).1 =
      "OK:getProfile\n\n执行失败: boom\n\nOK:getWallet" ∧
    ((TaskExecutor.executePlan
        (fun cmd _ => if cmd = "getTokens" then .error "boom" else .ok ("OK:" ++ cmd))
        { tasks :=
            [{ id := "task-1", description := "a", status := .pending,
               command := some "getProfile", result := none },
             { id := "task-2", description := "b", status := .pending,
               command := some "getTokens", result := none },
             { id := "task-3", description := "c", status := .pending,
               command := some "getWallet", result := none }],
          currentTaskIndex := -1, userId := "u", userMessage := "m" }).2.tasks.map
        (fun t => (t.status, t.result))) =
      [(.completed, some "OK:getProfile"), (.failed, some "boom"),
       (.completed, some "OK:getWallet")] ∧
    TaskPlan.isCompleted
      (TaskExecutor.executePlan
        (fun cmd _ => if cmd = "getTokens" then .error "boom" else .ok ("OK:" ++ cmd))
        { tasks :=
            [{ id := "task-1", description := "a", status := .pending,
               command := some "getProfile", result := none },
             { id := "task-2", description := "b", status := .pending,
               command := some "getTokens", result := none },
             { id := "task-3", description := "c", status := .pending,
               command := some "getWallet", result := none }],
          currentTaskIndex := -1, userId := "u", userMessage := "m" }).2 = true := by
  have h := executePlan_drains
    (fun cmd _ => if cmd = "getTokens" then .error "boom" else .ok ("OK:" ++ cmd))
    { tasks :=
        [{ id := "task-1", description := "a", status := .pending,
           command := some "getProfile", result := none },
         { id := "task-2", description := "b", status := .pending,
           command := some "getTokens", result := none },
         { id := "task-3", description := "c", status := .pending,
           command := some "getWallet", result := none }],
      currentTaskIndex := -1, userId := "u", userMessage := "m" }
    (by decide)
  refine ⟨?_, ?_, h.2.2.1⟩
  · rw [h.1]; rfl
  · rw [h.2.1]; rfl

/-- Witness for C4-amended: on a plan whose first task is already FAILED,
two executor rounds and an `addTask` leave that task untouched. -/
theorem taskplan_terminal_immutable_witness :
    (TaskPlanOps.applyExecOps
        [.round (.ok "x"), .add "d" none, .round (.error "y")]
        { tasks :=
            [{ id := "task-1", description := "a", status := .failed,
               command := some "none", result := some "boom" },
             { id := "task-2", description := "b", status := .pending,
               command := none, result := none }],
          currentTaskIndex := -1, userId := "u", userMessage := "m" }).tasks.get? 0 =
      some { id := "task-1", description := "a", status := .failed,
             command := some "none", result := some "boom" } := by
  exact (taskplan_terminal_immutable _ _).2
    [.round (.ok "x"), .add "d" none, .round (.error "y")] 0 (by decide) (by decide)

end Anemone
